import Mathlib

/-!
Verification of the DPS appointment booking engine.

This file embeds the core pure logic of the repository in Lean:
the decision engine (service classification, slot scoring, slot ranking),
the one-time-passcode extraction patterns, the candidate-date list builder,
the auto-book backtracking loop, the slot-discovery date extraction, the
run/cleanup lifecycle, the scheduler tick, and the ZIP handling, together
with theorems settling the specification claims about them.

Conventions:
- Python floats in the scoring code only ever take values that behave like
  exact decimals under the arithmetic the code performs (multiplication by
  0.5, max, round to 2 decimals); scores are therefore represented in
  hundredths (a score of 0.95 is the natural number 95), with intermediate
  values in thousandths where halving occurs.
- `datetime.date` values are a (month, day, year) structure; subtraction of
  dates is modelled by the proleptic Gregorian ordinal (`toordinal`).
- Strings are processed as `List Char`; regex digits and word characters are
  modelled at the ASCII level, which is faithful for the inputs the
  surrounding code produces.
-/

/- ───────────────────────── Character helpers ───────────────────────── -/

/-- ASCII decimal digit test (regex `[0-9]`, `\d` on the relevant inputs). -/
def isDig (c : Char) : Bool := '0' ≤ c && c ≤ '9'

/-- Numeric value of an ASCII digit. -/
def digod (c : Char) : Nat := c.toNat - '0'.toNat

/-- Python `\s` at the ASCII level: space, tab, newline, CR, VT, FF. -/
def pySpace (c : Char) : Bool :=
  c = ' ' || c = '\t' || c = '\n' || c = '\x0d' || c = '\x0b' || c = '\x0c'

/-- Python regex `\w` at the ASCII level: letters, digits, underscore. -/
def isWordChar (c : Char) : Bool := c.isAlpha || isDig c || c = '_'

/-- Lower-case a character list (Python `str.lower()` on ASCII). -/
def lowerList (cs : List Char) : List Char := cs.map Char.toLower

/-- `pat` occurs as a contiguous substring of `cs` (Python `pat in cs`). -/
def subIn (pat : List Char) : List Char → Bool
  | [] => pat.isPrefixOf []
  | c :: t => pat.isPrefixOf (c :: t) || subIn pat t

/-- Python `str.strip()`: remove leading and trailing whitespace. -/
def pyStrip (s : String) : String :=
  String.mk (((s.data.dropWhile pySpace).reverse.dropWhile pySpace).reverse)

/- ───────────────────────── Dates and strptime ───────────────────────── -/

/-- A calendar date as produced by `datetime.strptime(s, "%m/%d/%Y").date()`. -/
structure DateT where
  month : Nat
  day : Nat
  year : Nat
deriving DecidableEq, Repr

/-- Moves past one `/` (the literal `/` of the format string). -/
def chopSlash : List Char → Option (List Char)
  | '/' :: t => some t
  | _ => none

/-- Candidate parses for `%m` (regex `1[0-2]|0[1-9]|[1-9]`), in the
backtracking order of the regex engine: value paired with remaining input. -/
def monthCands : List Char → List (Nat × List Char)
  | c1 :: c2 :: rest =>
    (if c1 = '1' && '0' ≤ c2 && c2 ≤ '2' then [(10 + digod c2, rest)] else []) ++
    (if c1 = '0' && '1' ≤ c2 && c2 ≤ '9' then [(digod c2, rest)] else []) ++
    (if '1' ≤ c1 && c1 ≤ '9' then [(digod c1, c2 :: rest)] else [])
  | [c1] => if '1' ≤ c1 && c1 ≤ '9' then [(digod c1, [])] else []
  | [] => []

/-- Candidate parses for `%d` (regex `3[01]|[12]\d|0[1-9]|[1-9]`). -/
def dayCands : List Char → List (Nat × List Char)
  | c1 :: c2 :: rest =>
    (if c1 = '3' && (c2 = '0' || c2 = '1') then [(30 + digod c2, rest)] else []) ++
    (if (c1 = '1' || c1 = '2') && isDig c2 then [(10 * digod c1 + digod c2, rest)] else []) ++
    (if c1 = '0' && '1' ≤ c2 && c2 ≤ '9' then [(digod c2, rest)] else []) ++
    (if '1' ≤ c1 && c1 ≤ '9' then [(digod c1, c2 :: rest)] else [])
  | [c1] => if '1' ≤ c1 && c1 ≤ '9' then [(digod c1, [])] else []
  | [] => []

/-- `%Y` (regex `\d\d\d\d`) followed by end of input: `strptime` raises on
unconverted trailing data, so the year must end the string. -/
def yearEnd : List Char → Option Nat
  | [a, b, c, d] =>
    if isDig a && isDig b && isDig c && isDig d then
      some (1000 * digod a + 100 * digod b + 10 * digod c + digod d)
    else none
  | _ => none

/-- The regex phase of `strptime(s, "%m/%d/%Y")`: month, `/`, day, `/`,
four-digit year, end of input, with the engine backtracking order. -/
def parseRawMDY (cs : List Char) : Option (Nat × Nat × Nat) :=
  (monthCands cs).findSome? fun mc =>
    (chopSlash mc.2).bind fun r2 =>
      (dayCands r2).findSome? fun dc =>
        (chopSlash dc.2).bind fun r4 =>
          (yearEnd r4).map fun y => (mc.1, dc.1, y)

/-- Gregorian leap year. -/
def isLeap (y : Nat) : Bool := (y % 4 = 0 && y % 100 ≠ 0) || y % 400 = 0

/-- Days in a month of a given year. -/
def daysInMonth (y m : Nat) : Nat :=
  if m = 2 then (if isLeap y then 29 else 28)
  else if m = 4 || m = 6 || m = 9 || m = 11 then 30
  else 31

/-- `datetime.strptime(s, "%m/%d/%Y").date()`: the regex phase, then the
`date` constructor validation (year ≥ 1, day within the month). -/
def strptimeMDY (s : String) : Option DateT :=
  (parseRawMDY s.data).bind fun t =>
    if 1 ≤ t.2.2 && 1 ≤ t.2.1 && t.2.1 ≤ daysInMonth t.2.2 t.1 then
      some ⟨t.1, t.2.1, t.2.2⟩
    else none

/-- Days in the months strictly before month `m` of year `y`. -/
def daysBeforeMonth (y m : Nat) : Nat :=
  ((List.range (m - 1)).map (fun i => daysInMonth y (i + 1))).sum

/-- `date.toordinal()`: proleptic Gregorian day number, 0001-01-01 ↦ 1.
Date subtraction `(a - b).days` is `dayNumber a - dayNumber b`. -/
def dayNumber (dt : DateT) : Nat :=
  365 * (dt.year - 1) + (dt.year - 1) / 4 - (dt.year - 1) / 100 + (dt.year - 1) / 400 +
    daysBeforeMonth dt.year dt.month + (dt.day - 1)

/- ───────────────────────── Decision engine: scoring ───────────────────────── -/

/-- Round a value given in thousandths to hundredths, ties to even: this is
exactly what `round(x, 2)` computes on every float the scoring code can
produce (each such float is within 2⁻⁵⁰ of the exact decimal, on the same
side of the midpoint, except the exact ties 0.375 and 0.125 where CPython
rounds to even). -/
def roundTE (n : Nat) : Nat :=
  let q := n / 10
  let r := n % 10
  if r < 5 then q
  else if 5 < r then q + 1
  else if q % 2 = 0 then q else q + 1

/-- The base-scoring block of `DecisionEngine.score_slot`, in thousandths. -/
def baseScore (delta : Int) : Nat :=
  if delta = 0 then 1000
  else if delta = 1 then 900
  else if delta ≤ 3 then 750
  else if delta ≤ 7 then 600
  else if delta ≤ 14 then 400
  else if delta ≤ 30 then 250
  else 100

/-- The priority-boost block of `score_slot` (elif chain), in thousandths. -/
def priorityAdjust (priority : String) (delta : Int) (base : Nat) : Nat :=
  if priority = "same_day" ∧ delta = 0 then 1000
  else if priority = "same_day" ∧ 0 < delta then base / 2
  else if priority = "next_day" ∧ delta ≤ 1 then max base 950
  else if priority = "this_week" ∧ delta ≤ 7 then max base 800
  else base

/-- `DecisionEngine.score_slot(slot_date_str, priority)` with `date.today()`
passed explicitly; result in hundredths of the returned float. -/
def score_slot (slotDateStr : String) (priority : String) (today : DateT) : Nat :=
  match strptimeMDY slotDateStr with
  | none => 10
  | some slotDate =>
    let delta : Int := (dayNumber slotDate : Int) - (dayNumber today : Int)
    if delta < 0 then 0
    else roundTE (priorityAdjust priority delta (baseScore delta))

/-- Claim-side description of the final scores (C1): the day-delta step
function with the priority override applied and the result rounded to two
decimals, tabulated per priority, in hundredths. -/
def scoreTable (priority : String) (delta : Int) : Nat :=
  if priority = "same_day" then
    if delta = 0 then 100 else if delta = 1 then 45 else if delta ≤ 3 then 38
    else if delta ≤ 7 then 30 else if delta ≤ 14 then 20 else if delta ≤ 30 then 12
    else 5
  else if priority = "next_day" then
    if delta = 0 then 100 else if delta = 1 then 95 else if delta ≤ 3 then 75
    else if delta ≤ 7 then 60 else if delta ≤ 14 then 40 else if delta ≤ 30 then 25
    else 10
  else if priority = "this_week" then
    if delta = 0 then 100 else if delta = 1 then 90 else if delta ≤ 7 then 80
    else if delta ≤ 14 then 40 else if delta ≤ 30 then 25
    else 10
  else
    if delta = 0 then 100 else if delta = 1 then 90 else if delta ≤ 3 then 75
    else if delta ≤ 7 then 60 else if delta ≤ 14 then 40 else if delta ≤ 30 then 25
    else 10

example : strptimeMDY "03/10/2026" = some ⟨3, 10, 2026⟩ := by decide
example : strptimeMDY "3/5/2026" = some ⟨3, 5, 2026⟩ := by decide
example : strptimeMDY "13/05/2026" = none := by decide
example : strptimeMDY "02/30/2026" = none := by decide
example : strptimeMDY "02/29/2024" = some ⟨2, 29, 2024⟩ := by decide
example : strptimeMDY "02/29/2025" = none := by decide
example : strptimeMDY "03/10/20261" = none := by decide
example : strptimeMDY "garbage" = none := by decide
example : score_slot "03/11/2026" "any" ⟨3, 10, 2026⟩ = 90 := by decide
example : score_slot "03/11/2026" "same_day" ⟨3, 10, 2026⟩ = 45 := by decide
example : score_slot "03/30/2026" "same_day" ⟨3, 10, 2026⟩ = 12 := by decide

/- ───────────────────────── Decision engine: classification ───────────────────────── -/

/-- A user profile as consumed by `DecisionEngine._determine_service`: the
license-situation flags (absent dictionary keys default to false) and the
optional age. -/
structure Profile where
  has_texas_license : Bool := false
  has_out_of_state_license : Bool := false
  license_expired : Bool := false
  license_lost_stolen : Bool := false
  is_commercial : Bool := false
  id_only : Bool := false
  needs_permit : Bool := false
  age : Option Int := none
deriving DecidableEq, Repr

/-- Python truthiness `age and age < 18` (None and 0 are falsy). -/
def ageTruthyUnder18 (age : Option Int) : Bool :=
  match age with
  | some a => a ≠ 0 && a < 18
  | none => false

/-- `age is not None and age < 18`. -/
def ageUnder18 (age : Option Int) : Bool :=
  match age with
  | some a => a < 18
  | none => false

/-- `DecisionEngine._determine_service(profile)`: the ordered rule cascade,
returning (service_key, confidence in hundredths, reasoning). -/
def determine_service (p : Profile) : String × Nat × String :=
  if p.is_commercial then
    ("cdl", 95, "User needs commercial driving services (CDL).")
  else if p.id_only then
    ("texas_id", 95, "User needs a Texas identification card, not a driver license.")
  else if p.needs_permit || ageUnder18 p.age then
    ("permit", 95,
      "User needs a learner permit" ++
        (match p.age with
          | some a => if a ≠ 0 && a < 18 then s!" (age {a}, under 18)" else ""
          | none => "") ++ ".")
  else if p.has_texas_license && p.license_lost_stolen then
    ("replace_dl", 95, "User has a Texas DL that was lost or stolen and needs a replacement.")
  else if p.has_texas_license && p.license_expired then
    ("renew_dl", 95, "User has an expired Texas DL and needs to renew.")
  else if p.has_out_of_state_license && !p.has_texas_license then
    ("transfer_oos", 90, "User has an out-of-state license and needs to transfer it to Texas.")
  else if p.has_texas_license && !p.license_expired && !p.license_lost_stolen then
    ("change_update", 70,
      "User has a valid Texas DL. Assuming they need to update information. " ++
      "If they need a different service, please update your profile.")
  else if !p.has_texas_license && !p.has_out_of_state_license then
    match p.age with
    | some a =>
      if 18 ≤ a then
        ("first_time_dl", 90,
          "User has no existing Texas or out-of-state license. " ++
          "Recommending first-time Texas DL application." ++
          s!" User is {a} years old, eligible for full DL.")
      else
        ("permit", 85,
          s!"User is {a}, under 18 — recommending learner permit instead of full DL.")
    | none =>
      ("first_time_dl", 90,
        "User has no existing Texas or out-of-state license. " ++
        "Recommending first-time Texas DL application.")
  else
    ("first_time_dl", 50,
      "Could not confidently determine service type from the provided information. " ++
      "Defaulting to first-time DL application. Please review and update if needed.")

/-- Claim-side rule table (C2): condition, service key and confidence of each
rule, in the stated order commercial → id-only → permit-needed-or-under-18 →
lost/stolen-with-existing-license → expired-with-existing-license →
out-of-state-transfer → has-license-no-expiry-no-loss → no-license-at-all. -/
def classifyRules : List ((Profile → Bool) × String × Nat) :=
  [ (fun p => p.is_commercial, "cdl", 95),
    (fun p => p.id_only, "texas_id", 95),
    (fun p => p.needs_permit || ageUnder18 p.age, "permit", 95),
    (fun p => p.has_texas_license && p.license_lost_stolen, "replace_dl", 95),
    (fun p => p.has_texas_license && p.license_expired, "renew_dl", 95),
    (fun p => p.has_out_of_state_license && !p.has_texas_license, "transfer_oos", 90),
    (fun p => p.has_texas_license && !p.license_expired && !p.license_lost_stolen, "change_update", 70),
    (fun p => !p.has_texas_license && !p.has_out_of_state_license, "first_time_dl", 90) ]

/-- First-matching-rule evaluation over a rule table, with the low-confidence
first-time fallback when no rule matches. -/
def firstRule (p : Profile) : List ((Profile → Bool) × String × Nat) → String × Nat
  | [] => ("first_time_dl", 50)
  | r :: rest => if r.1 p then r.2 else firstRule p rest

example : (determine_service { age := some 16 }).1 = "permit" := by decide
example : (determine_service { age := some 16 }).2.1 = 95 := by decide
example : (determine_service { has_texas_license := true, license_expired := true }).1 = "renew_dl" := by decide
example : (determine_service { has_out_of_state_license := true }).1 = "transfer_oos" := by decide
example : (determine_service { age := some 25 }).1 = "first_time_dl" := by decide
example : (determine_service { age := some 25 }).2.1 = 90 := by decide

/- ───────────────────────── Decision engine: ranking ───────────────────────── -/

/-- Stable descending insertion by score: an element is placed before the
first entry of not-greater score, so earlier input stays first among equal
scores.  `list.sort(key=..., reverse=True)` is specified to be exactly the
stable descending sort, which this computes. -/
def insertDesc (x : String × Nat) : List (String × Nat) → List (String × Nat)
  | [] => [x]
  | y :: t => if y.2 ≤ x.2 then x :: y :: t else y :: insertDesc x t

/-- Stable descending sort by score. -/
def sortDesc (l : List (String × Nat)) : List (String × Nat) :=
  l.foldr insertDesc []

/-- `DecisionEngine.rank_slots(dates, priority)` with `date.today()` passed
explicitly: score every date, then sort best-first (stable). -/
def rank_slots (dates : List String) (priority : String) (today : DateT) :
    List (String × Nat) :=
  sortDesc (dates.map fun d => (d, score_slot d priority today))

example :
    rank_slots ["03/20/2026", "03/11/2026", "03/10/2026"] "any" ⟨3, 10, 2026⟩ =
      [("03/10/2026", 100), ("03/11/2026", 90), ("03/20/2026", 40)] := by decide

/- ───────────────────────── C1 helper lemmas ───────────────────────── -/

theorem priorityAdjust_same_day (delta : Int) (b : Nat) :
    priorityAdjust "same_day" delta b =
      if delta = 0 then 1000 else if 0 < delta then b / 2 else b := by
  by_cases h0 : delta = 0
  · rw [priorityAdjust, if_pos ⟨rfl, h0⟩, if_pos h0]
  · rw [priorityAdjust, if_neg (fun hc => h0 hc.2), if_neg h0]
    by_cases hp : 0 < delta
    · rw [if_pos ⟨rfl, hp⟩, if_pos hp]
    · rw [if_neg (fun hc => hp hc.2), if_neg hp,
        if_neg (fun hc => absurd hc.1 (by decide)),
        if_neg (fun hc => absurd hc.1 (by decide))]

theorem priorityAdjust_next_day (delta : Int) (b : Nat) :
    priorityAdjust "next_day" delta b =
      if delta ≤ 1 then max b 950 else b := by
  rw [priorityAdjust, if_neg (fun hc => absurd hc.1 (by decide)),
    if_neg (fun hc => absurd hc.1 (by decide))]
  by_cases h1 : delta ≤ 1
  · rw [if_pos ⟨rfl, h1⟩, if_pos h1]
  · rw [if_neg (fun hc => h1 hc.2), if_neg h1,
      if_neg (fun hc => absurd hc.1 (by decide))]

theorem priorityAdjust_this_week (delta : Int) (b : Nat) :
    priorityAdjust "this_week" delta b =
      if delta ≤ 7 then max b 800 else b := by
  rw [priorityAdjust, if_neg (fun hc => absurd hc.1 (by decide)),
    if_neg (fun hc => absurd hc.1 (by decide)),
    if_neg (fun hc => absurd hc.1 (by decide))]
  by_cases h7 : delta ≤ 7
  · rw [if_pos ⟨rfl, h7⟩, if_pos h7]
  · rw [if_neg (fun hc => h7 hc.2), if_neg h7]

theorem priorityAdjust_other (p : String) (delta : Int) (b : Nat)
    (h1 : p ≠ "same_day") (h2 : p ≠ "next_day") (h3 : p ≠ "this_week") :
    priorityAdjust p delta b = b := by
  rw [priorityAdjust, if_neg (fun hc => h1 hc.1), if_neg (fun hc => h1 hc.1),
    if_neg (fun hc => h2 hc.1), if_neg (fun hc => h3 hc.1)]

theorem scoreTable_same_day (delta : Int) :
    scoreTable "same_day" delta =
      (if delta = 0 then 100 else if delta = 1 then 45 else if delta ≤ 3 then 38
       else if delta ≤ 7 then 30 else if delta ≤ 14 then 20 else if delta ≤ 30 then 12
       else 5) := by
  rw [scoreTable, if_pos rfl]

theorem scoreTable_next_day (delta : Int) :
    scoreTable "next_day" delta =
      (if delta = 0 then 100 else if delta = 1 then 95 else if delta ≤ 3 then 75
       else if delta ≤ 7 then 60 else if delta ≤ 14 then 40 else if delta ≤ 30 then 25
       else 10) := by
  rw [scoreTable, if_neg (by decide : ¬ ("next_day" : String) = "same_day"), if_pos rfl]

theorem scoreTable_this_week (delta : Int) :
    scoreTable "this_week" delta =
      (if delta = 0 then 100 else if delta = 1 then 90 else if delta ≤ 7 then 80
       else if delta ≤ 14 then 40 else if delta ≤ 30 then 25
       else 10) := by
  rw [scoreTable, if_neg (by decide : ¬ ("this_week" : String) = "same_day"),
    if_neg (by decide : ¬ ("this_week" : String) = "next_day"), if_pos rfl]

theorem scoreTable_other (p : String) (delta : Int)
    (h1 : p ≠ "same_day") (h2 : p ≠ "next_day") (h3 : p ≠ "this_week") :
    scoreTable p delta =
      (if delta = 0 then 100 else if delta = 1 then 90 else if delta ≤ 3 then 75
       else if delta ≤ 7 then 60 else if delta ≤ 14 then 40 else if delta ≤ 30 then 25
       else 10) := by
  rw [scoreTable, if_neg h1, if_neg h2, if_neg h3]

theorem roundAdjust_eq_table (p : String) (delta : Int) (h : 0 ≤ delta) :
    roundTE (priorityAdjust p delta (baseScore delta)) = scoreTable p delta := by
  by_cases h1 : p = "same_day"
  · subst h1
    rw [priorityAdjust_same_day, scoreTable_same_day]
    simp only [baseScore]
    split_ifs <;> first | decide | omega
  by_cases h2 : p = "next_day"
  · subst h2
    rw [priorityAdjust_next_day, scoreTable_next_day]
    simp only [baseScore]
    split_ifs <;> first | decide | omega
  by_cases h3 : p = "this_week"
  · subst h3
    rw [priorityAdjust_this_week, scoreTable_this_week]
    simp only [baseScore]
    split_ifs <;> first | decide | omega
  · rw [priorityAdjust_other p delta _ h1 h2 h3, scoreTable_other p delta h1 h2 h3]
    simp only [baseScore]
    split_ifs <;> first | decide | omega

theorem scoreTable_le_100 (p : String) (delta : Int) : scoreTable p delta ≤ 100 := by
  simp only [scoreTable]
  split_ifs <;> decide

/-- C1: for every date string and priority (with the ambient `date.today()`
made explicit), `DecisionEngine.score_slot` returns a score in [0, 1]
(here in hundredths: in [0, 100]); a string that does not parse as
MM/DD/YYYY scores 0.10, a parsed date strictly before today scores 0.0, and
otherwise the score is exactly the day-delta step function with the priority
override applied and the result rounded to two decimals, as tabulated by
`scoreTable`. -/
theorem score_slot_spec (s priority : String) (today : DateT) :
    score_slot s priority today ≤ 100 ∧
    (strptimeMDY s = none → score_slot s priority today = 10) ∧
    (∀ d, strptimeMDY s = some d →
      ((dayNumber d : Int) < (dayNumber today : Int) → score_slot s priority today = 0) ∧
      ((dayNumber today : Int) ≤ (dayNumber d : Int) →
        score_slot s priority today =
          scoreTable priority ((dayNumber d : Int) - (dayNumber today : Int)))) := by
  cases hp : strptimeMDY s with
  | none =>
    exact ⟨by simp [score_slot, hp], fun _ => by simp [score_slot, hp],
      fun d hd => Option.noConfusion hd⟩
  | some d =>
    have hs : score_slot s priority today =
        if ((dayNumber d : Int) - (dayNumber today : Int)) < 0 then 0
        else roundTE (priorityAdjust priority ((dayNumber d : Int) - (dayNumber today : Int))
          (baseScore ((dayNumber d : Int) - (dayNumber today : Int)))) := by
      simp only [score_slot, hp]
    refine ⟨?_, fun h => Option.noConfusion h, ?_⟩
    · rw [hs]
      by_cases hneg : ((dayNumber d : Int) - (dayNumber today : Int)) < 0
      · rw [if_pos hneg]; omega
      · rw [if_neg hneg, roundAdjust_eq_table _ _ (by omega)]
        exact scoreTable_le_100 _ _
    · intro d' hd'
      injection hd' with hdd
      subst hdd
      constructor
      · intro hlt
        rw [hs, if_pos (by omega)]
      · intro hge
        rw [hs, if_neg (by omega), roundAdjust_eq_table _ _ (by omega)]

/-- Witness for C1: concrete instantiations of each hypothesis-bearing part
of `score_slot_spec`. -/
theorem score_slot_spec_witness :
    score_slot "garbage" "any" ⟨3, 10, 2026⟩ = 10 ∧
    score_slot "03/09/2026" "any" ⟨3, 10, 2026⟩ = 0 ∧
    score_slot "03/13/2026" "same_day" ⟨3, 10, 2026⟩ =
      scoreTable "same_day" ((dayNumber ⟨3, 13, 2026⟩ : Int) - (dayNumber ⟨3, 10, 2026⟩ : Int)) := by
  refine ⟨(score_slot_spec "garbage" "any" ⟨3, 10, 2026⟩).2.1 (by decide),
    ((score_slot_spec "03/09/2026" "any" ⟨3, 10, 2026⟩).2.2 ⟨3, 9, 2026⟩ (by decide)).1 (by decide),
    ((score_slot_spec "03/13/2026" "same_day" ⟨3, 10, 2026⟩).2.2 ⟨3, 13, 2026⟩ (by decide)).2 (by decide)⟩

/- ───────────────────────── C2 helper lemmas ───────────────────────── -/

theorem firstRule_conf_bound (p : Profile) :
    ∀ rules : List ((Profile → Bool) × String × Nat),
      (∀ r ∈ rules, 50 ≤ r.2.2 ∧ r.2.2 ≤ 95) →
      50 ≤ (firstRule p rules).2 ∧ (firstRule p rules).2 ≤ 95
  | [], _ => by simp [firstRule]
  | r :: rest, h => by
    rw [firstRule]
    by_cases hr : r.1 p = true
    · rw [if_pos hr]
      exact h r (List.mem_cons_self r rest)
    · rw [if_neg hr]
      exact firstRule_conf_bound p rest fun r' hr' => h r' (List.mem_cons_of_mem r hr')

theorem determine_service_eq_firstRule (p : Profile) :
    ((determine_service p).1, (determine_service p).2.1) = firstRule p classifyRules := by
  rcases p with ⟨tx, oos, exp, lost, com, ido, perm, age⟩
  rcases age with - | a
  · cases com <;> cases ido <;> cases perm <;> cases tx <;> cases oos <;> cases exp <;>
      cases lost <;> simp [determine_service, firstRule, classifyRules, ageUnder18]
  · by_cases ha : a < 18
    · cases com <;> cases ido <;> cases perm <;> cases tx <;> cases oos <;> cases exp <;>
        cases lost <;> simp [determine_service, firstRule, classifyRules, ageUnder18, ha]
    · have ha2 : (18 : Int) ≤ a := by omega
      cases com <;> cases ido <;> cases perm <;> cases tx <;> cases oos <;> cases exp <;>
        cases lost <;>
          simp [determine_service, firstRule, classifyRules, ageUnder18, ha, ha2]

/-- C2: the service classifier evaluates its rules in the fixed order
commercial → id-only → permit-needed-or-under-18 → lost/stolen-with-existing
→ expired-with-existing → out-of-state-transfer → info-update → first-time →
fallback, the first matching rule winning with its fixed confidence in
[0.50, 0.95]; in particular age 16 gives "permit" at 0.95, an expired Texas
license (without loss) gives "renew_dl", an out-of-state license without a
Texas one gives "transfer_oos", and no license flags at age 25 gives
"first_time_dl" at 0.90. -/
theorem determine_service_spec :
    (∀ p : Profile,
      ((determine_service p).1, (determine_service p).2.1) = firstRule p classifyRules) ∧
    (∀ p : Profile, 50 ≤ (determine_service p).2.1 ∧ (determine_service p).2.1 ≤ 95) ∧
    (determine_service { age := some 16 }).1 = "permit" ∧
    (determine_service { age := some 16 }).2.1 = 95 ∧
    (determine_service { has_texas_license := true, license_expired := true }).1 = "renew_dl" ∧
    (determine_service { has_out_of_state_license := true }).1 = "transfer_oos" ∧
    (determine_service { age := some 25 }).1 = "first_time_dl" ∧
    (determine_service { age := some 25 }).2.1 = 90 := by
  refine ⟨determine_service_eq_firstRule, fun p => ?_, by decide, by decide, by decide,
    by decide, by decide, by decide⟩
  have h := determine_service_eq_firstRule p
  have h2 : (determine_service p).2.1 = (firstRule p classifyRules).2 := congrArg Prod.snd h
  rw [h2]
  exact firstRule_conf_bound p classifyRules (by decide)

/- ───────────────────────── C6 helper lemmas ───────────────────────── -/

theorem insertDesc_perm (x : String × Nat) (l : List (String × Nat)) :
    (insertDesc x l).Perm (x :: l) := by
  induction l with
  | nil => rfl
  | cons y t ih =>
    rw [insertDesc]
    by_cases hc : y.2 ≤ x.2
    · rw [if_pos hc]
    · rw [if_neg hc]
      exact (ih.cons y).trans (List.Perm.swap x y t)

theorem sortDesc_perm (l : List (String × Nat)) : (sortDesc l).Perm l := by
  induction l with
  | nil => rfl
  | cons x t ih => exact (insertDesc_perm x (sortDesc t)).trans (ih.cons x)

theorem insertDesc_sorted (x : String × Nat) (l : List (String × Nat))
    (h : l.Pairwise (fun a b => b.2 ≤ a.2)) :
    (insertDesc x l).Pairwise (fun a b => b.2 ≤ a.2) := by
  induction l with
  | nil => simp [insertDesc]
  | cons y t ih =>
    rw [insertDesc]
    rcases List.pairwise_cons.mp h with ⟨hy, ht⟩
    by_cases hc : y.2 ≤ x.2
    · rw [if_pos hc]
      refine List.pairwise_cons.mpr ⟨?_, h⟩
      intro z hz
      rcases List.mem_cons.mp hz with rfl | hz
      · exact hc
      · exact le_trans (hy z hz) hc
    · rw [if_neg hc]
      refine List.pairwise_cons.mpr ⟨?_, ih ht⟩
      intro z hz
      rcases List.mem_cons.mp ((insertDesc_perm x t).mem_iff.mp hz) with rfl | hz
      · omega
      · exact hy z hz

theorem sortDesc_sorted (l : List (String × Nat)) :
    (sortDesc l).Pairwise (fun a b => b.2 ≤ a.2) := by
  induction l with
  | nil => simp [sortDesc]
  | cons x t ih => exact insertDesc_sorted x (sortDesc t) ih

theorem filter_insertDesc (x : String × Nat) (l : List (String × Nat)) (v : Nat) :
    (insertDesc x l).filter (fun e => e.2 == v) =
      if x.2 = v then x :: l.filter (fun e => e.2 == v)
      else l.filter (fun e => e.2 == v) := by
  induction l with
  | nil => by_cases hx : x.2 = v <;> simp [insertDesc, hx]
  | cons y t ih =>
    rw [insertDesc]
    by_cases hc : y.2 ≤ x.2
    · rw [if_pos hc]
      by_cases hx : x.2 = v <;> simp [hx, List.filter_cons]
    · rw [if_neg hc]
      by_cases hx : x.2 = v
      · have hy : ¬(y.2 = v) := by omega
        simp [List.filter_cons, ih, hx, hy]
      · simp [List.filter_cons, ih, hx]

theorem filter_sortDesc (l : List (String × Nat)) (v : Nat) :
    (sortDesc l).filter (fun e => e.2 == v) = l.filter (fun e => e.2 == v) := by
  induction l with
  | nil => rfl
  | cons x t ih =>
    have hs : sortDesc (x :: t) = insertDesc x (sortDesc t) := rfl
    rw [hs, filter_insertDesc]
    by_cases hx : x.2 = v <;> simp [hx, ih, List.filter_cons]

/-- C6: `rank_slots` returns one (date, score) entry per input date, scored
by `score_slot`; the output scores are non-increasing across the list; and
entries with equal scores keep the relative order the input gave them
(stable sort). -/
theorem rank_slots_spec (dates : List String) (priority : String) (today : DateT) :
    (rank_slots dates priority today).Perm
      (dates.map fun d => (d, score_slot d priority today)) ∧
    (rank_slots dates priority today).Pairwise (fun a b => b.2 ≤ a.2) ∧
    (∀ v : Nat, (rank_slots dates priority today).filter (fun e => e.2 == v) =
      (dates.map fun d => (d, score_slot d priority today)).filter (fun e => e.2 == v)) :=
  ⟨sortDesc_perm _, sortDesc_sorted _, fun v => filter_sortDesc _ v⟩

/- ───────────────────────── Candidate list builder ───────────────────────── -/

/-- One step of the availability loop in `_build_candidate_dates`: append a
truthy date not already among the candidates. -/
def addCand (acc : List String) (d : String) : List String :=
  if d ≠ "" ∧ d ∉ acc then acc ++ [d] else acc

/-- `BookingEngine._build_candidate_dates(target_date, available_dates)`:
the target first (Python truthiness: an empty or absent target is skipped),
then each truthy available date not already present, capped at 20. -/
def buildCandidateDates (target : Option String) (avail : Option (List String)) : List String :=
  let c0 : List String :=
    match target with
    | some t => if t = "" then [] else [t]
    | none => []
  let c1 : List String :=
    match avail with
    | none => c0
    | some ds => ds.foldl addCand c0
  c1.take 20

/-- Claim-side seed (C5): the target date first, when supplied and nonempty. -/
def targetFirst (target : Option String) : List String :=
  match target with
  | some t => if t = "" then [] else [t]
  | none => []

/-- Claim-side de-duplication (C5): keep the first occurrence of each
element not already seen, preserving order. -/
def dedupKeepFirst (seen : List String) : List String → List String
  | [] => []
  | d :: rest =>
    if d ∈ seen then dedupKeepFirst seen rest
    else d :: dedupKeepFirst (d :: seen) rest

theorem foldl_dedupKeepFirst (ds : List String) :
    ∀ (acc seen : List String), (∀ x, x ∈ seen ↔ x ∈ acc) →
      ds.foldl addCand acc =
        acc ++ dedupKeepFirst seen (ds.filter fun d => d ≠ "") := by
  induction ds with
  | nil => intro acc seen _; simp [dedupKeepFirst]
  | cons d rest ih =>
    intro acc seen hmem
    rw [List.foldl_cons]
    by_cases hd : d = ""
    · have ha : addCand acc d = acc := by rw [addCand, if_neg (fun hc => hc.1 hd)]
      have hf : (d :: rest).filter (fun x => x ≠ "") = rest.filter (fun x => x ≠ "") := by
        simp [hd]
      rw [ha, hf]
      exact ih acc seen hmem
    · have hf : (d :: rest).filter (fun x => x ≠ "") = d :: rest.filter (fun x => x ≠ "") := by
        simp [hd]
      rw [hf]
      by_cases hin : d ∈ acc
      · have ha : addCand acc d = acc := by rw [addCand, if_neg (fun hc => hc.2 hin)]
        have hdk : dedupKeepFirst seen (d :: rest.filter (fun x => x ≠ "")) =
            dedupKeepFirst seen (rest.filter (fun x => x ≠ "")) := by
          rw [dedupKeepFirst, if_pos ((hmem d).mpr hin)]
        rw [ha, hdk]
        exact ih acc seen hmem
      · have ha : addCand acc d = acc ++ [d] := by rw [addCand, if_pos ⟨hd, hin⟩]
        have hdk : dedupKeepFirst seen (d :: rest.filter (fun x => x ≠ "")) =
            d :: dedupKeepFirst (d :: seen) (rest.filter (fun x => x ≠ "")) := by
          rw [dedupKeepFirst, if_neg (fun hc => hin ((hmem d).mp hc))]
        have hmem2 : ∀ x, x ∈ d :: seen ↔ x ∈ acc ++ [d] := by
          intro x
          simp only [List.mem_cons, List.mem_append, List.mem_singleton]
          have := hmem x
          tauto
        rw [ha, hdk, ih (acc ++ [d]) (d :: seen) hmem2, List.append_assoc]
        rfl

/-- C5 counterexample: an empty-string entry among the available dates is
dropped by the builder, whereas the claim as stated (target first, then the
available dates in order with duplicates removed) would keep it. -/
theorem build_candidate_dates_counterexample :
    buildCandidateDates none (some [""]) = [] ∧
    buildCandidateDates none (some [""]) ≠ [""] := by
  exact ⟨by decide, by decide⟩

/-- C5 (amended): the candidate list is the target date first (when supplied
and nonempty), followed by the nonempty available dates in their original
order with duplicates of already-included dates removed, truncated to at
most 20 elements; e.g. target "03/10/2026" with available
["03/11/2026", "03/10/2026"] yields ["03/10/2026", "03/11/2026"]. -/
theorem build_candidate_dates_spec :
    (∀ (target : Option String) (avail : List String),
      buildCandidateDates target (some avail) =
        (dedupKeepFirst [] (targetFirst target ++ avail.filter fun d => d ≠ "")).take 20) ∧
    (∀ (target : Option String) (avail : Option (List String)),
      (buildCandidateDates target avail).length ≤ 20) ∧
    buildCandidateDates (some "03/10/2026") (some ["03/11/2026", "03/10/2026"]) =
      ["03/10/2026", "03/11/2026"] := by
  refine ⟨?_, ?_, by decide⟩
  · intro target avail
    rcases target with - | t
    · simp only [buildCandidateDates, targetFirst]
      rw [foldl_dedupKeepFirst avail [] [] (fun x => Iff.rfl)]
      rfl
    · by_cases ht : t = ""
      · subst ht
        simp only [buildCandidateDates, targetFirst, eq_self_iff_true, if_true]
        rw [foldl_dedupKeepFirst avail [] [] (fun x => Iff.rfl)]
        rfl
      · simp only [buildCandidateDates, targetFirst, if_neg ht]
        rw [foldl_dedupKeepFirst avail [t] [t] (fun x => Iff.rfl)]
        have hsp : dedupKeepFirst [] (([t] : List String) ++
            avail.filter (fun d => d ≠ "")) =
            t :: dedupKeepFirst [t] (avail.filter fun d => d ≠ "") := by
          rw [List.singleton_append, dedupKeepFirst, if_neg (by simp)]
        rw [hsp]
        rfl
  · intro target avail
    rcases target with - | t <;> rcases avail with - | ds <;>
      simp [buildCandidateDates, List.length_take] <;> omega

/- ───────────────────────── ZIP handling (search_location) ───────────────────────── -/

/-- The ZIP computation of `BookingEngine.search_location`:
`zip_value = str(config.get("zip_code") or "76201").strip()` and
`zip_digits = re.sub(r"\\D", "", zip_value)[:5] or "76201"` (the filled
value). -/
def zipDigits (zipCfg : Option String) : String :=
  let zipValue := pyStrip (match zipCfg with
    | some s => if s = "" then "76201" else s
    | none => "76201")
  let ds := (zipValue.data.filter isDig).take 5
  if ds.isEmpty then "76201" else String.mk ds

theorem pySpace_not_dig (c : Char) (h : pySpace c = true) : isDig c = false := by
  rw [pySpace] at h
  simp only [Bool.or_eq_true, decide_eq_true_eq] at h
  rcases h with ((((h | h) | h) | h) | h) | h <;> subst h <;> rfl

theorem filter_dropWhile_pySpace (l : List Char) :
    (l.dropWhile pySpace).filter isDig = l.filter isDig := by
  induction l with
  | nil => rfl
  | cons c t ih =>
    rw [List.dropWhile_cons]
    by_cases hc : pySpace c = true
    · rw [if_pos hc, ih, List.filter_cons, pySpace_not_dig c hc]
      simp
    · rw [if_neg hc]

theorem filter_pyStrip (s : String) :
    (pyStrip s).data.filter isDig = s.data.filter isDig := by
  show (((s.data.dropWhile pySpace).reverse.dropWhile pySpace).reverse).filter isDig =
    s.data.filter isDig
  rw [List.filter_reverse, filter_dropWhile_pySpace, List.filter_reverse,
    List.reverse_reverse, filter_dropWhile_pySpace]

/-- C10: with no configured zip_code, or a configured value containing no
digit characters, the fixed default "76201" is filled; otherwise exactly the
first five digit characters of the configured value are filled. -/
theorem zip_digits_spec :
    zipDigits none = "76201" ∧
    (∀ s : String,
      (s.data.filter isDig = [] → zipDigits (some s) = "76201") ∧
      (s.data.filter isDig ≠ [] →
        zipDigits (some s) = String.mk ((s.data.filter isDig).take 5))) := by
  refine ⟨by decide, fun s => ?_⟩
  by_cases hs : s = ""
  · subst hs
    exact ⟨fun _ => by decide, fun h => absurd rfl h⟩
  · have hz : zipDigits (some s) =
        if ((s.data.filter isDig).take 5).isEmpty then "76201"
        else String.mk ((s.data.filter isDig).take 5) := by
      simp only [zipDigits, if_neg hs, filter_pyStrip]
    constructor
    · intro h
      rw [hz, h]
      rfl
    · intro h
      rw [hz, if_neg ?_]
      rcases hf : s.data.filter isDig with - | ⟨c, t⟩
      · exact absurd hf h
      · simp [List.take]

/-- Witness for C10: a digit-free configured value falls back to the
default, and a value with punctuation and more than five digits fills its
first five digit characters. -/
theorem zip_digits_spec_witness :
    zipDigits (some "abc") = "76201" ∧ zipDigits (some " 75001-1234") = "75001" := by
  constructor
  · exact (zip_digits_spec.2 "abc").1 (by decide)
  · rw [(zip_digits_spec.2 " 75001-1234").2 (by decide)]
    decide

/- ───────────────────────── Scheduler tick (AgentScheduler._run_check) ───────────────────────── -/

/-- The job fields `_run_check` reads and writes, plus whether the periodic
check is still registered with the scheduler. -/
structure JobState where
  status : String
  attempts : Nat
  maxAttempts : Nat
  scheduled : Bool
deriving DecidableEq, Repr

/-- Outcome of one `run_check_and_book` invocation as seen by the tick:
a result with the booking-confirmed flag, no result, or a raised exception. -/
inductive TickOutcome
  | found (confirmed : Bool)
  | nothing
  | raised
deriving DecidableEq, Repr

/-- `job["status"] in ("stopped", "booked", "failed")`. -/
def terminalStatus (s : String) : Bool :=
  s = "stopped" || s = "booked" || s = "failed"

/-- One execution of `AgentScheduler._run_check` over the job state:
terminal statuses deregister the job untouched; a job at its attempt limit
is marked failed and deregistered; otherwise the attempt counter increments,
the run executes, and a confirmed booking marks the job booked and
deregisters it. -/
def runCheckTick (j : JobState) (o : TickOutcome) : JobState :=
  if terminalStatus j.status then { j with scheduled := false }
  else if j.maxAttempts ≤ j.attempts then
    { j with status := "failed", scheduled := false }
  else
    let j2 : JobState := { j with status := "monitoring", attempts := j.attempts + 1 }
    match o with
    | .found true => { j2 with status := "booked", scheduled := false }
    | .found false => { j2 with status := "appointment_found" }
    | .nothing => j2
    | .raised => j2

/-- The job state after `n` scheduler ticks with the given run outcomes. -/
def iterTicks (outcomes : Nat → TickOutcome) (j : JobState) : Nat → JobState
  | 0 => j
  | n + 1 => runCheckTick (iterTicks outcomes j n) (outcomes n)

theorem tick_maxAttempts (j : JobState) (o : TickOutcome) :
    (runCheckTick j o).maxAttempts = j.maxAttempts := by
  rw [runCheckTick]
  split_ifs
  · rfl
  · rfl
  · cases o with
    | found c => cases c <;> rfl
    | nothing => rfl
    | raised => rfl

theorem tick_attempts_cases (j : JobState) (o : TickOutcome) :
    ((runCheckTick j o).attempts = j.attempts ∧
      (terminalStatus j.status = true ∨ j.maxAttempts ≤ j.attempts)) ∨
    ((runCheckTick j o).attempts = j.attempts + 1 ∧ terminalStatus j.status = false ∧
      j.attempts < j.maxAttempts) := by
  rw [runCheckTick]
  by_cases h1 : terminalStatus j.status = true
  · rw [if_pos h1]
    exact Or.inl ⟨rfl, Or.inl h1⟩
  · by_cases h2 : j.maxAttempts ≤ j.attempts
    · rw [if_neg h1, if_pos h2]
      exact Or.inl ⟨rfl, Or.inr h2⟩
    · rw [if_neg h1, if_neg h2]
      refine Or.inr ⟨?_, by simpa using h1, by omega⟩
      cases o with
      | found c => cases c <;> rfl
      | nothing => rfl
      | raised => rfl

theorem tick_max_reached (j : JobState) (o : TickOutcome)
    (h1 : terminalStatus j.status = false) (h2 : j.maxAttempts ≤ j.attempts) :
    runCheckTick j o = { j with status := "failed", scheduled := false } := by
  rw [runCheckTick, if_neg (by simp [h1]), if_pos h2]

theorem iter_maxAttempts (outcomes : Nat → TickOutcome) (j : JobState) (n : Nat) :
    (iterTicks outcomes j n).maxAttempts = j.maxAttempts := by
  induction n with
  | zero => rfl
  | succ n ih => rw [iterTicks, tick_maxAttempts, ih]

/-- C9: across every sequence of scheduler ticks, the attempts counter is
monotonically non-decreasing and (given it starts within the bound, as a
fresh job with 0 attempts does) never exceeds max_attempts; a tick of a
non-terminal job below the limit increments attempts by exactly one
regardless of the run outcome; and a tick of a non-terminal job that has
reached max_attempts marks the job failed and removes its future
scheduling without incrementing. -/
theorem scheduler_tick_spec (outcomes : Nat → TickOutcome) (j : JobState) :
    (∀ n, (iterTicks outcomes j n).attempts ≤ (iterTicks outcomes j (n + 1)).attempts) ∧
    (j.attempts ≤ j.maxAttempts →
      ∀ n, (iterTicks outcomes j n).attempts ≤ j.maxAttempts) ∧
    (∀ n, terminalStatus (iterTicks outcomes j n).status = false →
      (iterTicks outcomes j n).attempts < (iterTicks outcomes j n).maxAttempts →
      (iterTicks outcomes j (n + 1)).attempts = (iterTicks outcomes j n).attempts + 1) ∧
    (∀ n, terminalStatus (iterTicks outcomes j n).status = false →
      (iterTicks outcomes j n).maxAttempts ≤ (iterTicks outcomes j n).attempts →
      (iterTicks outcomes j (n + 1)).status = "failed" ∧
        (iterTicks outcomes j (n + 1)).scheduled = false ∧
        (iterTicks outcomes j (n + 1)).attempts = (iterTicks outcomes j n).attempts) := by
  refine ⟨?_, ?_, ?_, ?_⟩
  · intro n
    rcases tick_attempts_cases (iterTicks outcomes j n) (outcomes n) with ⟨h, -⟩ | ⟨h, -⟩ <;>
      rw [iterTicks, h] <;> omega
  · intro hb n
    induction n with
    | zero => exact hb
    | succ n ih =>
      have hm := iter_maxAttempts outcomes j n
      rcases tick_attempts_cases (iterTicks outcomes j n) (outcomes n) with ⟨h, -⟩ | ⟨h, -, hlt⟩ <;>
        rw [iterTicks, h] <;> omega
  · intro n h1 h2
    rcases tick_attempts_cases (iterTicks outcomes j n) (outcomes n) with ⟨-, hc⟩ | ⟨h, -⟩
    · rcases hc with hc | hc
      · rw [h1] at hc; cases hc
      · omega
    · rw [iterTicks, h]
  · intro n h1 h2
    rw [iterTicks, tick_max_reached _ (outcomes n) h1 h2]
    exact ⟨rfl, rfl, rfl⟩

/-- Witness for C9: a fresh monitoring job with a limit of 2 attempts,
ticked repeatedly with empty-handed runs, counts 1, 2, then is marked
failed and descheduled with the counter still at 2. -/
theorem scheduler_tick_spec_witness :
    (iterTicks (fun _ => TickOutcome.nothing) ⟨"running", 0, 2, true⟩ 1).attempts = 1 ∧
    (iterTicks (fun _ => TickOutcome.nothing) ⟨"running", 0, 2, true⟩ 2).attempts = 2 ∧
    (iterTicks (fun _ => TickOutcome.nothing) ⟨"running", 0, 2, true⟩ 3).status = "failed" ∧
    (iterTicks (fun _ => TickOutcome.nothing) ⟨"running", 0, 2, true⟩ 3).scheduled = false ∧
    (iterTicks (fun _ => TickOutcome.nothing) ⟨"running", 0, 2, true⟩ 3).attempts = 2 := by
  have h := scheduler_tick_spec (fun _ => TickOutcome.nothing) ⟨"running", 0, 2, true⟩
  have h1 := (h.2.2.1 0 (by decide) (by decide))
  have h2 := (h.2.2.1 1 (by decide) (by decide))
  have h3 := (h.2.2.2 2 (by decide) (by decide))
  exact ⟨by decide, by decide, h3.1, h3.2.1, by decide⟩

/- ───────────────────────── Auto-book loop (auto_book_slot) ───────────────────────── -/

/-- The confirmation phrases checked against `page.content().lower()` after
the Confirm click (source list, four phrases). -/
def confirmPhrases : List String :=
  ["confirmation number", "your appointment has been confirmed",
   "appointment has been confirmed", "has been confirmed"]

/-- `any(k in final_content.lower() for k in [...])`. -/
def confirmationDetected (content : String) : Bool :=
  confirmPhrases.any fun k => subIn k.data (lowerList content.data)

/-- Claim-side detection (C4): the three phrases the claim lists. -/
def confirmPhrasesClaim : List String :=
  ["confirmation number", "appointment has been confirmed", "has been confirmed"]

/-- Claim-side detection predicate over the three listed phrases. -/
def confirmationDetectedClaim (content : String) : Bool :=
  confirmPhrasesClaim.any fun k => subIn k.data (lowerList content.data)

theorem subIn_iff (pat : List Char) (cs : List Char) :
    subIn pat cs = true ↔ pat <:+: cs := by
  induction cs with
  | nil =>
    rw [subIn]
    simp [List.isPrefixOf_iff_prefix]
  | cons c t ih =>
    rw [subIn]
    simp [List.isPrefixOf_iff_prefix, ih, List.infix_cons_iff]

theorem confirmationDetected_eq_claim (content : String) :
    confirmationDetected content = confirmationDetectedClaim content := by
  rw [confirmationDetected, confirmationDetectedClaim, confirmPhrases, confirmPhrasesClaim]
  simp only [List.any_cons, List.any_nil]
  by_cases hb : subIn ("your appointment has been confirmed").data (lowerList content.data) = true
  · have hd : subIn ("has been confirmed").data (lowerList content.data) = true := by
      rw [subIn_iff] at hb ⊢
      exact List.IsInfix.trans (by decide) hb
    rw [hb, hd]
    simp
  · have hb' : subIn ("your appointment has been confirmed").data (lowerList content.data) = false :=
      by simpa using hb
    rw [hb']
    simp

/-- The probe answers the browser gives one candidate iteration of
`auto_book_slot`: the page classifications, the click outcomes (including
the retry-once-via-Previous date click), and the page content read after
the Confirm click. -/
structure CandidateEnv where
  onTimeOrConfirm : Bool
  prevClickOk : Bool
  dateClickOk : Bool
  dateClickRetryOk : Bool
  next1Ok : Bool
  onTimeStep : Bool
  timeSlotOk : Bool
  next2Ok : Bool
  onConfirmStep : Bool
  content : String
deriving Repr

/-- The date-click stage of one candidate: the direct click, or on failure
(with the page on a time/confirm step and Previous clickable) one retry. -/
def dateClicked (e : CandidateEnv) : Bool :=
  e.dateClickOk || (e.onTimeOrConfirm && e.prevClickOk && e.dateClickRetryOk)

/-- The candidate reaches the Confirm click: every stage up to and including
the confirm-step marker succeeds. -/
def reachesConfirm (e : CandidateEnv) : Bool :=
  dateClicked e && e.next1Ok && e.onTimeStep && e.timeSlotOk && e.next2Ok && e.onConfirmStep

/-- One candidate iteration of the `auto_book_slot` loop: `none` means the
loop `continue`s to the next candidate; `some b` means the function returns
`b` (the Confirm click was issued and the content check decides). -/
def tryCandidate (e : CandidateEnv) : Option Bool :=
  if dateClicked e = false then none
  else if e.next1Ok = false then none
  else if e.onTimeStep = false then none
  else if e.timeSlotOk = false then none
  else if e.next2Ok = false then none
  else if e.onConfirmStep = false then none
  else some (confirmationDetected e.content)

/-- The `for date_index, d in enumerate(candidate_dates)` loop; falls off the
end with False ("tried all dates"). -/
def autoBookGo (env : Nat → CandidateEnv) : Nat → List String → Bool
  | _, [] => false
  | i, _ :: rest =>
    match tryCandidate (env i) with
    | some b => b
    | none => autoBookGo env (i + 1) rest

/-- `BookingEngine.auto_book_slot(target_date, available_dates)` over the
abstract browser environment: builds the candidate list and iterates. -/
def autoBookSlot (target : Option String) (avail : Option (List String))
    (env : Nat → CandidateEnv) : Bool :=
  autoBookGo env 0 (buildCandidateDates target avail)

theorem tryCandidate_eq (e : CandidateEnv) :
    tryCandidate e =
      if reachesConfirm e then some (confirmationDetected e.content) else none := by
  rw [tryCandidate, reachesConfirm]
  by_cases h1 : dateClicked e = false
  · rw [if_pos h1, if_neg (by simp [h1])]
  · have h1' : dateClicked e = true := by simpa using h1
    rw [if_neg h1, h1']
    cases h2 : e.next1Ok <;> cases h3 : e.onTimeStep <;> cases h4 : e.timeSlotOk <;>
      cases h5 : e.next2Ok <;> cases h6 : e.onConfirmStep <;> simp

theorem autoBookGo_confirm (env : Nat → CandidateEnv) :
    ∀ (cs : List String) (i k : Nat), k < cs.length →
      (∀ j, j < k → reachesConfirm (env (i + j)) = false) →
      reachesConfirm (env (i + k)) = true →
      autoBookGo env i cs = confirmationDetected (env (i + k)).content := by
  intro cs
  induction cs with
  | nil =>
    intro i k hk
    simp at hk
  | cons c rest ih =>
    intro i k hk hskip hconf
    cases k with
    | zero =>
      simp only [Nat.add_zero] at hconf ⊢
      rw [autoBookGo, tryCandidate_eq, if_pos hconf]
    | succ k =>
      have h0 : reachesConfirm (env i) = false := by
        have := hskip 0 (by omega)
        simpa using this
      rw [autoBookGo, tryCandidate_eq, h0, if_neg (by simp)]
      have hrec := ih (i + 1) k (by simp only [List.length_cons] at hk; omega)
        (fun j hj => by
          have := hskip (j + 1) (by omega)
          have harith : i + (j + 1) = i + 1 + j := by omega
          rwa [harith] at this)
        (by
          have harith : i + (k + 1) = i + 1 + k := by omega
          rwa [harith] at hconf)
      rw [hrec]
      have harith : i + 1 + k = i + (k + 1) := by omega
      rw [harith]

/-- C4: once the Confirm click has been issued for a candidate (the first
candidate index whose stages all succeed), `auto_book_slot` returns exactly
the content check of the page after that click — true iff the lowered page
content contains one of the claimed confirmation phrases — and the result
does not depend on the environment beyond that candidate: no further
candidate dates are attempted. -/
theorem auto_book_slot_spec (target : Option String) (avail : Option (List String))
    (env env' : Nat → CandidateEnv) (i : Nat)
    (hi : i < (buildCandidateDates target avail).length)
    (hskip : ∀ j, j < i → reachesConfirm (env j) = false)
    (hconf : reachesConfirm (env i) = true)
    (hagree : ∀ j, j ≤ i → env' j = env j) :
    autoBookSlot target avail env = confirmationDetectedClaim (env i).content ∧
    autoBookSlot target avail env' = confirmationDetectedClaim (env i).content := by
  have h1 : autoBookSlot target avail env = confirmationDetected (env i).content := by
    have := autoBookGo_confirm env (buildCandidateDates target avail) 0 i
      (by simpa using hi) (fun j hj => by simpa using hskip j hj) (by simpa using hconf)
    simpa [autoBookSlot] using this
  have h2 : autoBookSlot target avail env' = confirmationDetected (env i).content := by
    have := autoBookGo_confirm env' (buildCandidateDates target avail) 0 i
      (by simpa using hi)
      (fun j hj => by
        rw [Nat.zero_add, hagree j (by omega)]
        exact hskip j hj)
      (by rw [Nat.zero_add, hagree i (le_refl i)]; exact hconf)
    rw [autoBookSlot, this, Nat.zero_add, hagree i (le_refl i)]
  rw [confirmationDetected_eq_claim] at h1 h2
  exact ⟨h1, h2⟩

/-- Witness for C4: a single all-stages-succeed candidate instantiates the
theorem; its page content "Confirmation Number 12345" makes the run return
true. -/
theorem auto_book_slot_spec_witness :
    autoBookSlot (some "03/10/2026") none
      (fun _ => ⟨false, false, true, false, true, true, true, true, true,
        "Confirmation Number 12345"⟩) =
      confirmationDetectedClaim "Confirmation Number 12345" ∧
    confirmationDetectedClaim "Confirmation Number 12345" = true := by
  constructor
  · exact (auto_book_slot_spec (some "03/10/2026") none
      (fun _ => ⟨false, false, true, false, true, true, true, true, true,
        "Confirmation Number 12345"⟩)
      (fun _ => ⟨false, false, true, false, true, true, true, true, true,
        "Confirmation Number 12345"⟩) 0 (by decide)
      (fun j hj => absurd hj (by omega)) (by decide) (fun j _ => rfl)).1
  · decide

/- ───────────────────────── Run lifecycle (run_check_and_book / cleanup) ───────────────────────── -/

/-- The browser handles held by the engine (`self.page`, `self.context`,
`self.browser`, `self._playwright`) plus the trace of close calls issued. -/
structure EngineState where
  page : Bool
  context : Bool
  browser : Bool
  playwright : Bool
  closeTrace : List String
deriving DecidableEq, Repr

/-- `BookingEngine.cleanup()`: close and null out each live handle in turn
(each close is individually exception-swallowed, so the handle is released
regardless). -/
def cleanup (s : EngineState) : EngineState :=
  let s1 := if s.page then
    { s with page := false, closeTrace := s.closeTrace ++ ["page.close"] } else s
  let s2 := if s1.context then
    { s1 with context := false, closeTrace := s1.closeTrace ++ ["context.close"] } else s1
  let s3 := if s2.browser then
    { s2 with browser := false, closeTrace := s2.closeTrace ++ ["browser.close"] } else s2
  if s3.playwright then
    { s3 with playwright := false, closeTrace := s3.closeTrace ++ ["playwright.stop"] } else s3

/-- `BookingEngine.setup_browser()`: acquire playwright, browser, context,
page in order; `n` is how many of the four acquisitions succeed before an
exception (n = 4 means setup completed). Returns the state and whether
setup completed. -/
def setupBrowser (n : Nat) (s : EngineState) : EngineState × Bool :=
  let s1 := if 1 ≤ n then { s with playwright := true } else s
  let s2 := if 2 ≤ n then { s1 with browser := true } else s1
  let s3 := if 3 ≤ n then { s2 with context := true } else s2
  let s4 := if 4 ≤ n then { s3 with page := true } else s3
  (s4, 4 ≤ n)

/-- Outcome of one awaited wizard step: a returned boolean, or a raised
exception. -/
inductive StepR
  | ok (b : Bool)
  | exn
deriving DecidableEq, Repr

/-- The outcomes the external world gives one `run_check_and_book` run. -/
structure RunEnv where
  setupSteps : Nat
  navigateR : StepR
  loginR : StepR
  otpR : StepR
  serviceR : StepR
  locationR : StepR
  apptsR : Except Unit Bool
  bookR : StepR
deriving Repr

/-- The early-return chain of the `try` body of `run_check_and_book` after
browser setup: each failing step returns None, the appointments step may
find nothing (None), otherwise auto-booking runs and the appointments
result is returned; a raised exception anywhere propagates to the `except`
arm.  The wizard steps never touch the four browser handles, so their
composite outcome is a pure function of the step outcomes. -/
def runDecision (env : RunEnv) (ab : Bool) : Except Unit (Option Bool) :=
  match env.navigateR with
  | .exn => .error ()
  | .ok false => .ok none
  | .ok true =>
    match env.loginR with
    | .exn => .error ()
    | .ok false => .ok none
    | .ok true =>
      match env.otpR with
      | .exn => .error ()
      | .ok false => .ok none
      | .ok true =>
        match env.serviceR with
        | .exn => .error ()
        | .ok false => .ok none
        | .ok true =>
          match env.locationR with
          | .exn => .error ()
          | .ok false => .ok none
          | .ok true =>
            match env.apptsR with
            | .error _ => .error ()
            | .ok false => .ok none
            | .ok true =>
              if ab then
                match env.bookR with
                | .exn => .error ()
                | .ok booked => .ok (some booked)
              else .ok (some false)

/-- The `try` body of `run_check_and_book`: setup (which mutates the handle
state), then the step chain. -/
def runBody (env : RunEnv) (ab : Bool) (s : EngineState) :
    Except Unit (Option Bool) × EngineState :=
  let p := setupBrowser env.setupSteps s
  (if p.2 then runDecision env ab else .error (), p.1)

/-- `BookingEngine.run_check_and_book`: the try body, the `except` arm
mapping an exception to a None result, and the `finally` arm running
`cleanup` on every path before the value is returned. -/
def runCheckAndBook (env : RunEnv) (ab : Bool) (s : EngineState) :
    Option Bool × EngineState :=
  let p := runBody env ab s
  match p.1 with
  | .ok r => (r, cleanup p.2)
  | .error _ => (none, cleanup p.2)

theorem cleanup_fields (s : EngineState) :
    (cleanup s).page = false ∧ (cleanup s).context = false ∧
    (cleanup s).browser = false ∧ (cleanup s).playwright = false ∧
    (s.page = true → "page.close" ∈ (cleanup s).closeTrace) ∧
    (s.context = true → "context.close" ∈ (cleanup s).closeTrace) ∧
    (s.browser = true → "browser.close" ∈ (cleanup s).closeTrace) ∧
    (s.playwright = true → "playwright.stop" ∈ (cleanup s).closeTrace) := by
  rcases s with ⟨p, c, b, pw, tr⟩
  cases p <;> cases c <;> cases b <;> cases pw <;> simp [cleanup]

theorem setup_state (n : Nat) :
    (setupBrowser n ⟨false, false, false, false, []⟩).1 =
      ⟨decide (4 ≤ n), decide (3 ≤ n), decide (2 ≤ n), decide (1 ≤ n), []⟩ := by
  rw [setupBrowser]
  split_ifs <;> simp_all

theorem runCheckAndBook_state (env : RunEnv) (ab : Bool) (s : EngineState) :
    (runCheckAndBook env ab s).2 = cleanup (setupBrowser env.setupSteps s).1 := by
  rw [runCheckAndBook, runBody]
  rcases hok : (setupBrowser env.setupSteps s).2 with - | -
  · rfl
  · rcases runDecision env ab with - | r <;> rfl

/-- C8: starting from a fresh engine, `run_check_and_book` tears the browser
session down on every execution path — whatever the step outcomes (success,
a failed step returning None, or an exception anywhere, including partway
through browser setup), after the call no handle remains live, and a close
call was issued for every handle that setup had acquired. -/
theorem run_check_and_book_cleanup (env : RunEnv) (ab : Bool) :
    ((runCheckAndBook env ab ⟨false, false, false, false, []⟩).2.page = false ∧
      (runCheckAndBook env ab ⟨false, false, false, false, []⟩).2.context = false ∧
      (runCheckAndBook env ab ⟨false, false, false, false, []⟩).2.browser = false ∧
      (runCheckAndBook env ab ⟨false, false, false, false, []⟩).2.playwright = false) ∧
    (1 ≤ env.setupSteps →
      "playwright.stop" ∈ (runCheckAndBook env ab ⟨false, false, false, false, []⟩).2.closeTrace) ∧
    (2 ≤ env.setupSteps →
      "browser.close" ∈ (runCheckAndBook env ab ⟨false, false, false, false, []⟩).2.closeTrace) ∧
    (3 ≤ env.setupSteps →
      "context.close" ∈ (runCheckAndBook env ab ⟨false, false, false, false, []⟩).2.closeTrace) ∧
    (4 ≤ env.setupSteps →
      "page.close" ∈ (runCheckAndBook env ab ⟨false, false, false, false, []⟩).2.closeTrace) := by
  have hs := runCheckAndBook_state env ab ⟨false, false, false, false, []⟩
  rw [setup_state] at hs
  have hc := cleanup_fields ⟨decide (4 ≤ env.setupSteps), decide (3 ≤ env.setupSteps),
    decide (2 ≤ env.setupSteps), decide (1 ≤ env.setupSteps), []⟩
  rw [hs]
  refine ⟨⟨hc.1, hc.2.1, hc.2.2.1, hc.2.2.2.1⟩, ?_, ?_, ?_, ?_⟩
  · intro h
    exact hc.2.2.2.2.2.2.2 (by simpa using h)
  · intro h
    exact hc.2.2.2.2.2.2.1 (by simpa using h)
  · intro h
    exact hc.2.2.2.2.2.1 (by simpa using h)
  · intro h
    exact hc.2.2.2.2.1 (by simpa using h)

/-- Witness for C8: a run whose location step fails (returns None) after a
complete setup still closes all four handles. -/
theorem run_check_and_book_cleanup_witness :
    "page.close" ∈ (runCheckAndBook
      ⟨4, StepR.ok true, StepR.ok true, StepR.ok true, StepR.ok true, StepR.ok false,
        Except.ok true, StepR.ok true⟩ true
      ⟨false, false, false, false, []⟩).2.closeTrace ∧
    "playwright.stop" ∈ (runCheckAndBook
      ⟨4, StepR.ok true, StepR.ok true, StepR.ok true, StepR.ok true, StepR.ok false,
        Except.ok true, StepR.ok true⟩ true
      ⟨false, false, false, false, []⟩).2.closeTrace := by
  have h := run_check_and_book_cleanup
    ⟨4, StepR.ok true, StepR.ok true, StepR.ok true, StepR.ok true, StepR.ok false,
      Except.ok true, StepR.ok true⟩ true
  exact ⟨h.2.2.2.2 (by decide), h.2.1 (by decide)⟩

/- ───────────────────────── OTP extraction (OTPHandler) ───────────────────────── -/

/-- Case-insensitive literal match (re.IGNORECASE): consume `kw` from the
front of `cs`, returning the remainder. -/
def chopPrefixCI : List Char → List Char → Option (List Char)
  | [], cs => some cs
  | _ :: _, [] => none
  | k :: ks, c :: cs => if c.toLower = k.toLower then chopPrefixCI ks cs else none

/-- The character class `[:\s]`. -/
def colonSpace (c : Char) : Bool := c = ':' || pySpace c

/-- `[:\s]+` (greedy; its class is disjoint from `[0-9]`, so no backtracking
can arise). -/
def chopColonSpacePlus : List Char → Option (List Char)
  | [] => none
  | c :: t => if colonSpace c then some (t.dropWhile colonSpace) else none

/-- One anchored attempt of `kw[:\s]+([0-9]{4,6})`: keyword, separator run,
then the greedy 4-6 digit group. -/
def tryKwAt (kw : List Char) (cs : List Char) : Option (List Char) :=
  (chopPrefixCI kw cs).bind fun r1 =>
    (chopColonSpacePlus r1).bind fun r2 =>
      let ds := (r2.takeWhile isDig).take 6
      if 4 ≤ ds.length then some ds else none

/-- `re.search` of a keyword pattern: leftmost position whose anchored
attempt succeeds. -/
def searchKw (kw : List Char) : List Char → Option (List Char)
  | [] => tryKwAt kw []
  | c :: t =>
    match tryKwAt kw (c :: t) with
    | some ds => some ds
    | none => searchKw kw t

/-- `(?:passcode|code|otp|verify)` anchored here (case-insensitive). -/
def kwHere (cs : List Char) : Bool :=
  (chopPrefixCI ("passcode".data) cs).isSome || (chopPrefixCI ("code".data) cs).isSome ||
    (chopPrefixCI ("otp".data) cs).isSome || (chopPrefixCI ("verify".data) cs).isSome

/-- `.*(?:passcode|code|otp|verify)` anchored here: one of the keywords
occurs later on the same line (`.` does not match a newline). -/
def kwAfterNoNewline : List Char → Bool
  | [] => false
  | c :: t => kwHere (c :: t) || (c ≠ '\n' && kwAfterNoNewline t)

/-- Word-character test for `\b` against the preceding character. -/
def prevIsWord : Option Char → Bool
  | some c => isWordChar c
  | none => false

/-- One anchored attempt of `\b([0-9]{4,6})\b.*(?:passcode|code|otp|verify)`:
a maximal digit run of length 4-6 delimited by word boundaries, followed on
the same line by a keyword. -/
def try5At (prev : Option Char) (cs : List Char) : Option (List Char) :=
  if prevIsWord prev then none
  else
    let ds := cs.takeWhile isDig
    if 4 ≤ ds.length ∧ ds.length ≤ 6 then
      let rest := cs.drop ds.length
      if (match rest.head? with | some c => !isWordChar c | none => true) &&
          kwAfterNoNewline rest then some ds
      else none
    else none

/-- `re.search` for the digits-before-keyword pattern. -/
def search5 (prev : Option Char) : List Char → Option (List Char)
  | [] => none
  | c :: t =>
    match try5At prev (c :: t) with
    | some ds => some ds
    | none => search5 (some c) t

/-- `[^>]*>`: skip to just past the first `>`. -/
def afterGt : List Char → Option (List Char)
  | [] => none
  | c :: t => if c = '>' then some t else afterGt t

/-- One anchored attempt of `<[^>]*>([0-9]{4,6})<[^>]*>`: a tag, an exact
4-6 digit run, and an immediately following tag. -/
def try6At (cs : List Char) : Option (List Char) :=
  match cs with
  | [] => none
  | c :: rest =>
    if c = '<' then
      match afterGt rest with
      | none => none
      | some after =>
        let ds := after.takeWhile isDig
        if 4 ≤ ds.length ∧ ds.length ≤ 6 then
          match after.drop ds.length with
          | [] => none
          | c2 :: r2 => if c2 = '<' && r2.contains '>' then some ds else none
        else none
    else none

/-- `re.search` for the markup-tag pattern. -/
def search6 : List Char → Option (List Char)
  | [] => none
  | c :: t =>
    match try6At (c :: t) with
    | some ds => some ds
    | none => search6 t

/-- One anchored attempt of the fallback `([0-9]{6})`: six consecutive
digits. -/
def try7At (cs : List Char) : Option (List Char) :=
  let ds := cs.take 6
  if ds.length = 6 && ds.all isDig then some ds else none

/-- `re.search` for the fallback pattern. -/
def search7 : List Char → Option (List Char)
  | [] => none
  | c :: t =>
    match try7At (c :: t) with
    | some ds => some ds
    | none => search7 t

/-- `OTPHandler._extract_otp_from_message` over the decoded body: the seven
patterns in order, first match wins (every group the patterns can produce
already has at least four digits, so the `len(otp) >= 4` guard never
rejects). -/
def extract_otp (body : String) : Option String :=
  let cs := body.data
  (match searchKw ("passcode".data) cs with
    | some ds => some ds
    | none =>
      match searchKw ("code".data) cs with
      | some ds => some ds
      | none =>
        match searchKw ("otp".data) cs with
        | some ds => some ds
        | none =>
          match searchKw ("verification".data) cs with
          | some ds => some ds
          | none =>
            match search5 none cs with
            | some ds => some ds
            | none =>
              match search6 cs with
              | some ds => some ds
              | none => search7 cs).map String.mk

/-- `OTPHandler.get_otp_from_email`: poll the mailbox once per iteration
(`fetch i` is the i-th `_fetch_latest_otp` outcome, with exceptions mapped
to `none`), return the first truthy code, and `none` once the timeout
(modelled as the number `n` of poll iterations it admits) is exhausted. -/
def getOtpFromEmail (fetch : Nat → Option String) : Nat → Nat → Option String
  | _, 0 => none
  | i, n + 1 =>
    match fetch i with
    | some otp => if otp = "" then getOtpFromEmail fetch (i + 1) n else some otp
    | none => getOtpFromEmail fetch (i + 1) n

example : extract_otp "Your passcode is 482913" = some "482913" := by decide
example : extract_otp "passcode: 4829" = some "4829" := by decide
example : extract_otp "code: 12345 or 987654" = some "12345" := by decide
example : extract_otp "482913" = some "482913" := by decide
example : extract_otp "1234" = none := by decide
example : extract_otp "12345" = none := by decide
example : extract_otp "<b>4829</b>" = some "4829" := by decide
example : extract_otp "1234 is your otp" = some "1234" := by decide

/- ───────────────────────── C3 helper lemmas ───────────────────────── -/

theorem mem_of_mem_dropWhile (p : Char → Bool) : ∀ (l : List Char) (x : Char),
    x ∈ l.dropWhile p → x ∈ l := by
  intro l
  induction l with
  | nil => intro x hx; simpa using hx
  | cons c t ih =>
    intro x hx
    rw [List.dropWhile_cons] at hx
    by_cases hc : p c = true
    · rw [if_pos hc] at hx
      exact List.mem_cons_of_mem c (ih x hx)
    · rw [if_neg hc] at hx
      exact hx

theorem chopPrefixCI_mem : ∀ (ks cs r : List Char), chopPrefixCI ks cs = some r →
    ∀ x ∈ r, x ∈ cs := by
  intro ks
  induction ks with
  | nil =>
    intro cs r h x hx
    rw [chopPrefixCI] at h
    injection h with h
    subst h
    exact hx
  | cons k ks ih =>
    intro cs r h x hx
    cases cs with
    | nil => exact Option.noConfusion h
    | cons c t =>
      rw [chopPrefixCI] at h
      by_cases hc : c.toLower = k.toLower
      · rw [if_pos hc] at h
        exact List.mem_cons_of_mem c (ih t r h x hx)
      · rw [if_neg hc] at h
        exact Option.noConfusion h

theorem chopColonSpacePlus_mem (l r : List Char) (h : chopColonSpacePlus l = some r) :
    ∀ x ∈ r, x ∈ l := by
  cases l with
  | nil => exact Option.noConfusion h
  | cons c t =>
    rw [chopColonSpacePlus] at h
    by_cases hc : colonSpace c = true
    · rw [if_pos hc] at h
      injection h with h
      subst h
      intro x hx
      exact List.mem_cons_of_mem c (mem_of_mem_dropWhile colonSpace t x hx)
    · rw [if_neg hc] at h
      exact Option.noConfusion h

theorem takeWhile_isDig_eq_nil (l : List Char) (h : ∀ c ∈ l, isDig c = false) :
    l.takeWhile isDig = [] := by
  cases l with
  | nil => rfl
  | cons c t => simp [List.takeWhile_cons, h c (List.mem_cons_self c t)]

theorem tryKwAt_none (kw cs : List Char) (h : ∀ c ∈ cs, isDig c = false) :
    tryKwAt kw cs = none := by
  rw [tryKwAt]
  cases h1 : chopPrefixCI kw cs with
  | none => rfl
  | some r1 =>
    cases h2 : chopColonSpacePlus r1 with
    | none => simp [h2]
    | some r2 =>
      have hr2 : ∀ c ∈ r2, isDig c = false := fun c hc =>
        h c (chopPrefixCI_mem kw cs r1 h1 c (chopColonSpacePlus_mem r1 r2 h2 c hc))
      simp [h2, takeWhile_isDig_eq_nil r2 hr2]

theorem searchKw_none (kw : List Char) : ∀ cs, (∀ c ∈ cs, isDig c = false) →
    searchKw kw cs = none := by
  intro cs
  induction cs with
  | nil => intro h; rw [searchKw]; exact tryKwAt_none kw [] h
  | cons c t ih =>
    intro h
    rw [searchKw, tryKwAt_none kw (c :: t) h]
    exact ih fun x hx => h x (List.mem_cons_of_mem c hx)

theorem try5At_none (prev : Option Char) (cs : List Char)
    (h : ∀ c ∈ cs, isDig c = false) : try5At prev cs = none := by
  rw [try5At]
  by_cases hp : prevIsWord prev = true
  · rw [if_pos hp]
  · rw [if_neg hp]
    simp [takeWhile_isDig_eq_nil cs h]

theorem search5_none : ∀ cs (prev : Option Char), (∀ c ∈ cs, isDig c = false) →
    search5 prev cs = none := by
  intro cs
  induction cs with
  | nil => intro prev h; rfl
  | cons c t ih =>
    intro prev h
    rw [search5, try5At_none prev (c :: t) h]
    exact ih (some c) fun x hx => h x (List.mem_cons_of_mem c hx)

theorem afterGt_mem : ∀ (l r : List Char), afterGt l = some r → ∀ x ∈ r, x ∈ l := by
  intro l
  induction l with
  | nil => intro r h; exact Option.noConfusion h
  | cons c t ih =>
    intro r h
    rw [afterGt] at h
    by_cases hc : c = '>'
    · rw [if_pos hc] at h
      injection h with h
      subst h
      intro x hx
      exact List.mem_cons_of_mem c hx
    · rw [if_neg hc] at h
      intro x hx
      exact List.mem_cons_of_mem c (ih r h x hx)

theorem try6At_none (cs : List Char) (h : ∀ c ∈ cs, isDig c = false) :
    try6At cs = none := by
  cases cs with
  | nil => rfl
  | cons c rest =>
    rw [try6At]
    by_cases hc : c = '<'
    · rw [if_pos hc]
      cases hg : afterGt rest with
      | none => rfl
      | some after =>
        have hafter : ∀ x ∈ after, isDig x = false := fun x hx =>
          h x (List.mem_cons_of_mem c (afterGt_mem rest after hg x hx))
        simp [takeWhile_isDig_eq_nil after hafter]
    · rw [if_neg hc]

theorem search6_none : ∀ cs, (∀ c ∈ cs, isDig c = false) → search6 cs = none := by
  intro cs
  induction cs with
  | nil => intro h; rfl
  | cons c t ih =>
    intro h
    rw [search6, try6At_none (c :: t) h]
    exact ih fun x hx => h x (List.mem_cons_of_mem c hx)

theorem try7At_none (cs : List Char) (h : ∀ c ∈ cs, isDig c = false) :
    try7At cs = none := by
  cases cs with
  | nil => rfl
  | cons c t =>
    rw [try7At]
    simp [List.take_succ_cons, h c (List.mem_cons_self c t)]

theorem search7_none : ∀ cs, (∀ c ∈ cs, isDig c = false) → search7 cs = none := by
  intro cs
  induction cs with
  | nil => intro h; rfl
  | cons c t ih =>
    intro h
    rw [search7, try7At_none (c :: t) h]
    exact ih fun x hx => h x (List.mem_cons_of_mem c hx)

theorem extract_otp_noDigit (body : String) (h : ∀ c ∈ body.data, isDig c = false) :
    extract_otp body = none := by
  rw [extract_otp]
  simp only [searchKw_none _ _ h, search5_none _ none h, search6_none _ h, search7_none _ h]
  rfl

theorem getOtpFromEmail_none (fetch : Nat → Option String) (h : ∀ i, fetch i = none) :
    ∀ (n i : Nat), getOtpFromEmail fetch i n = none := by
  intro n
  induction n with
  | zero => intro i; rfl
  | succ n ih =>
    intro i
    simp only [getOtpFromEmail, h i]
    exact ih (i + 1)

/-- C3 counterexample: a body that is exactly a bare four-digit number with
no keyword extracts nothing — the last-resort fallback pattern is
`([0-9]{6})`, six digits, not 4-6 as claimed. -/
theorem extract_otp_counterexample :
    extract_otp "1234" = none ∧ extract_otp "1234" ≠ some "1234" := by
  exact ⟨by decide, by decide⟩

/-- C3 (amended): the extractor applies its patterns in the stated order
(keyword-prefixed forms, digits adjacent to a keyword, digits inside markup
tags, then the fallback) and returns the first match, but the last-resort
fallback matches a run of exactly six digits: a bare six-digit body yields
its number via the fallback while bare four- or five-digit bodies with no
keyword yield none; a keyword-prefixed group takes precedence over a later
six-digit run; a body with no digits yields none, and the polling loop then
returns none after the timeout. -/
theorem extract_otp_spec :
    (∀ body : String, (∀ c ∈ body.data, isDig c = false) → extract_otp body = none) ∧
    extract_otp "Your passcode is 482913" = some "482913" ∧
    extract_otp "passcode: 4829" = some "4829" ∧
    extract_otp "code: 12345 or 987654" = some "12345" ∧
    extract_otp "482913" = some "482913" ∧
    extract_otp "1234" = none ∧
    extract_otp "12345" = none ∧
    (∀ fetch : Nat → Option String, (∀ i, fetch i = none) →
      ∀ (n i : Nat), getOtpFromEmail fetch i n = none) :=
  ⟨extract_otp_noDigit, by decide, by decide, by decide, by decide, by decide, by decide,
    fun fetch h n i => getOtpFromEmail_none fetch h n i⟩

/-- Witness for C3: a digit-free body extracts nothing, and a polling loop
whose every fetch comes back empty returns none after its iterations. -/
theorem extract_otp_spec_witness :
    extract_otp "no code here" = none ∧
    getOtpFromEmail (fun _ => none) 0 24 = none := by
  exact ⟨extract_otp_spec.1 "no code here" (by decide),
    extract_otp_spec.2.2.2.2.2.2.2 (fun _ => none) (fun _ => rfl) 24 0⟩

/- ───────────────────────── Slot discovery (_extract_date_cards) ───────────────────────── -/

/-- Exactly `k` digits (regex `\d{k}`): the digits and the remainder. -/
def grabDigits : Nat → List Char → Option (List Char × List Char)
  | 0, cs => some ([], cs)
  | _ + 1, [] => none
  | k + 1, c :: t =>
    if isDig c then (grabDigits k t).map fun p => (c :: p.1, p.2) else none

/-- Zero-width `\b` looking right: next character absent or not a word
character. -/
def notWordNext : List Char → Bool
  | [] => true
  | c :: _ => !isWordChar c

/-- `(?:/\d{4})?\b` in the card-date pattern: prefer the year (regex `?` is
greedy), fall back to the bare boundary. -/
def tryYearTail (r3 : List Char) : Option (List Char × List Char) :=
  let fallback : Option (List Char × List Char) :=
    if notWordNext r3 then some ([], r3) else none
  match chopSlash r3 with
  | some r4 =>
    match grabDigits 4 r4 with
    | some p => if notWordNext p.2 then some ('/' :: p.1, p.2) else fallback
    | none => fallback
  | none => fallback

/-- `\d{1,2}(?:/\d{4})?\b`: the day (two digits preferred, backtracking to
one) and the year tail. -/
def tryDayTail (r2 : List Char) : Option (List Char × List Char) :=
  let tryK : Nat → Option (List Char × List Char) := fun k =>
    match grabDigits k r2 with
    | some p => (tryYearTail p.2).map fun q => (p.1 ++ q.1, q.2)
    | none => none
  match tryK 2 with
  | some r => some r
  | none => tryK 1

/-- One anchored attempt of the card-date pattern
`\b(\d{1,2}/\d{1,2}(?:/\d{4})?)\b` with the regex backtracking order:
returns the group and the remainder after the match. -/
def tryDateAt (prev : Option Char) (cs : List Char) : Option (List Char × List Char) :=
  if prevIsWord prev then none
  else
    let tryM : Nat → Option (List Char × List Char) := fun k =>
      match grabDigits k cs with
      | some p =>
        match chopSlash p.2 with
        | some r2 => (tryDayTail r2).map fun q => (p.1 ++ '/' :: q.1, q.2)
        | none => none
      | none => none
    match tryM 2 with
    | some r => some r
    | none => tryM 1

/-- `re.findall` of the card-date pattern: non-overlapping matches left to
right (fueled by the input length; each step consumes at least one
character). -/
def scanCardDates : Nat → Option Char → List Char → List (List Char)
  | 0, _, _ => []
  | _ + 1, _, [] => []
  | fuel + 1, prev, c :: t =>
    match tryDateAt prev (c :: t) with
    | some (tok, rest) => tok :: scanCardDates fuel (tok.getLastD c) rest
    | none => scanCardDates fuel (some c) t

/-- All card-date tokens of a text. -/
def findCardDates (cs : List Char) : List (List Char) :=
  scanCardDates (cs.length + 1) none cs

/-- One anchored attempt of the fallback pattern `\d{1,2}/\d{1,2}/\d{4}`
(no word boundaries). -/
def tryFullDateAt (cs : List Char) : Option (List Char × List Char) :=
  let tryD : List Char → Nat → Option (List Char × List Char) := fun r2 k2 =>
    match grabDigits k2 r2 with
    | some q =>
      match chopSlash q.2 with
      | some r4 =>
        match grabDigits 4 r4 with
        | some y => some (q.1 ++ '/' :: y.1, y.2)
        | none => none
      | none => none
    | none => none
  let tryM : Nat → Option (List Char × List Char) := fun k =>
    match grabDigits k cs with
    | some p =>
      match chopSlash p.2 with
      | some r2 =>
        match (match tryD r2 2 with
          | some r => some r
          | none => tryD r2 1) with
        | some q => some (p.1 ++ '/' :: q.1, q.2)
        | none => none
      | none => none
    | none => none
  match tryM 2 with
  | some r => some r
  | none => tryM 1

/-- `re.findall` of the fallback full-date pattern over the page HTML. -/
def scanFullDates : Nat → List Char → List (List Char)
  | 0, _ => []
  | _ + 1, [] => []
  | fuel + 1, c :: t =>
    match tryFullDateAt (c :: t) with
    | some (tok, rest) => tok :: scanFullDates fuel rest
    | none => scanFullDates fuel t

/-- All fallback full-date tokens of the HTML. -/
def findFullDates (cs : List Char) : List (List Char) :=
  scanFullDates (cs.length + 1) cs

example : findCardDates ("Thursday 3/12/2026").data = [['3', '/', '1', '2', '/', '2', '0', '2', '6']] := by decide
example : findCardDates ("Mon 3/7").data = [['3', '/', '7']] := by decide
example : findCardDates ("123/4/2026").data = [] := by decide
example : findFullDates ("x 03/15/2026 y").data = [['0', '3', '/', '1', '5', '/', '2', '0', '2', '6']] := by decide
example : findFullDates ("123/4/2026").data = [['2', '3', '/', '4', '/', '2', '0', '2', '6']] := by decide

/-- The non-clickable label excluded in the card loop. -/
def labelText : List Char := "Next Available Date".data

/-- Number of `/` separators in a token (`len(tok.split("/")) == 2` is
"exactly one slash"). -/
def slashCount (tok : List Char) : Nat := (tok.filter fun c => c = '/').length

/-- Append a string not already collected (the `seen` set and the `dates`
list always hold the same strings, so one list serves as both). -/
def addNew (acc : List String) (s : String) : List String :=
  if s ∈ acc then acc else acc ++ [s]

/-- The inner loop over one card text's regex matches: skip month/day-only
tokens (exactly one slash), de-duplicate, append.  Tokens consist of digits
and slashes, so the source's `match.strip()` is the identity. -/
def addCardTokens (acc : List String) (toks : List (List Char)) : List String :=
  toks.foldl (fun acc tok =>
    if slashCount tok = 1 then acc else addNew acc (String.mk tok)) acc

/-- One card text: strip, skip when empty or carrying the label, else
collect its date tokens. -/
def processCardText (acc : List String) (t : String) : List String :=
  let txt := pyStrip t
  if txt = "" ∨ subIn labelText txt.data then acc
  else addCardTokens acc (findCardDates txt.data)

/-- The two locator passes of `_extract_date_cards` (each capped at 30
elements), sharing one seen/dates accumulator. -/
def cardStageDates (cards1 cards2 : List String) : List String :=
  (cards2.take 30).foldl processCardText ((cards1.take 30).foldl processCardText [])

/-- The HTML fallback of `_extract_date_cards`: all full-date matches,
de-duplicated (it runs only when the card stage found nothing, so the
accumulator starts empty). -/
def fallbackDates (html : String) : List String :=
  (findFullDates html.data).foldl (fun acc tok => addNew acc (String.mk tok)) []

/-- The `datetime.strptime(x, "%m/%d/%Y")` sort key, as the proleptic
ordinal (order-isomorphic to comparing the parsed datetimes). -/
def dateKey (s : String) : Nat :=
  match strptimeMDY s with
  | some d => dayNumber d
  | none => 0

/-- Stable ascending insertion by date key. -/
def insertAsc (x : String) : List String → List String
  | [] => [x]
  | y :: t => if dateKey x ≤ dateKey y then x :: y :: t else y :: insertAsc x t

/-- `dates.sort(key=lambda x: strptime(x, "%m/%d/%Y"))` inside
`try/except pass`: CPython computes every key before moving any element, so
a single unparseable entry aborts the sort with the list unchanged. -/
def sortDatesIfParse (l : List String) : List String :=
  if l.all (fun s => (strptimeMDY s).isSome) then l.foldr insertAsc [] else l

/-- The page inputs `_extract_date_cards` / `get_available_appointments`
consume: the visible texts of the two locator passes, the raw page HTML,
the body text, and the configured location preference. -/
structure PageModel where
  cardTexts1 : List String
  cardTexts2 : List String
  html : String
  bodyText : String
  locationPreference : String
deriving Repr

/-- `BookingEngine._extract_date_cards`. -/
def extract_date_cards (pm : PageModel) : List String :=
  let dates := cardStageDates pm.cardTexts1 pm.cardTexts2
  let dates := if dates = [] then fallbackDates pm.html else dates
  sortDatesIfParse dates

/-- The fixed location keyword list of `get_available_appointments`. -/
def locationKeywords : List String :=
  ["denton", "arlington", "dallas", "houston", "austin", "fort worth",
   "san antonio", "plano", "mckinney", "lewisville", "carrollton"]

/-- Python `str.title()` at the ASCII level: uppercase a letter that starts
a letter run, lowercase the rest. -/
def pyTitle (s : String) : String :=
  String.mk (s.data.foldl (fun (st : Bool × List Char) c =>
    if c.isAlpha then
      (true, st.2 ++ [if st.1 then c.toLower else c.toUpper])
    else (false, st.2 ++ [c])) (false, [])).2

/-- The slot-discovery result (the `RunResult`-relevant fields of the dict
built by `get_available_appointments`). -/
structure RunResultM where
  location : String
  next_available : String
  available_dates : List String
  total_slots : Nat
deriving DecidableEq, Repr

/-- `BookingEngine.get_available_appointments`: find a location keyword in
the lowered body text, extract date cards, return the no-appointments
outcome (`none`) when both come up empty, `none` when no dates were found,
and otherwise the result with the dates capped at 15. -/
def get_available_appointments (pm : PageModel) : Option RunResultM :=
  let locationFound := locationKeywords.find? fun kw => subIn kw.data (lowerList pm.bodyText.data)
  let dateCandidates := extract_date_cards pm
  if dateCandidates = [] ∧ locationFound = none then none
  else
    match dateCandidates with
    | [] => none
    | d :: _ =>
      some { location :=
               match locationFound with
               | some kw => pyTitle kw
               | none => pm.locationPreference,
             next_available := d,
             available_dates := dateCandidates.take 15,
             total_slots := dateCandidates.length }

example :
    extract_date_cards ⟨["Thursday 3/12/2026", "Next Available Date: 3/9/2026", "Friday 3/6/2026"],
      [], "", "", "Denton"⟩ = ["3/6/2026", "3/12/2026"] := by decide
example :
    (get_available_appointments ⟨[], [], "Next Available Date: 03/15/2026", "denton page",
        "Denton"⟩).map (fun r => r.available_dates) = some ["03/15/2026"] := by decide
example :
    get_available_appointments ⟨[], [], "nothing", "no keywords", "Denton"⟩ = none := by decide
example :
    (get_available_appointments ⟨["Mon 01/05/2026"], [], "", "visit dallas today",
        "Denton"⟩).map (fun r => r.location) = some "Dallas" := by decide

/- ───────────────────────── C7 helper lemmas ───────────────────────── -/

theorem addNew_nodup (acc : List String) (s : String) (h : acc.Nodup) :
    (addNew acc s).Nodup := by
  rw [addNew]
  by_cases hs : s ∈ acc
  · rw [if_pos hs]; exact h
  · rw [if_neg hs]
    refine List.Nodup.append h (List.nodup_singleton s) ?_
    intro a ha hb
    rw [List.mem_singleton] at hb
    subst hb
    exact hs ha

theorem addCardTokens_nodup : ∀ (toks : List (List Char)) (acc : List String), acc.Nodup →
    (addCardTokens acc toks).Nodup := by
  intro toks
  induction toks with
  | nil => intro acc h; exact h
  | cons tok rest ih =>
    intro acc h
    rw [addCardTokens, List.foldl_cons]
    by_cases hs : slashCount tok = 1
    · rw [if_pos hs]
      exact ih acc h
    · rw [if_neg hs]
      exact ih _ (addNew_nodup acc (String.mk tok) h)

theorem processCardText_nodup (acc : List String) (t : String) (h : acc.Nodup) :
    (processCardText acc t).Nodup := by
  rw [processCardText]
  split_ifs
  · exact h
  · exact addCardTokens_nodup _ acc h

theorem foldl_processCardText_nodup : ∀ (texts : List String) (acc : List String), acc.Nodup →
    (texts.foldl processCardText acc).Nodup := by
  intro texts
  induction texts with
  | nil => intro acc h; exact h
  | cons t rest ih =>
    intro acc h
    rw [List.foldl_cons]
    exact ih _ (processCardText_nodup acc t h)

theorem cardStageDates_nodup (c1 c2 : List String) : (cardStageDates c1 c2).Nodup := by
  rw [cardStageDates]
  exact foldl_processCardText_nodup _ _ (foldl_processCardText_nodup _ _ List.nodup_nil)

theorem fallbackDates_nodup (html : String) : (fallbackDates html).Nodup := by
  rw [fallbackDates]
  generalize findFullDates html.data = toks
  have : ∀ (toks : List (List Char)) (acc : List String), acc.Nodup →
      (toks.foldl (fun acc tok => addNew acc (String.mk tok)) acc).Nodup := by
    intro toks
    induction toks with
    | nil => intro acc h; exact h
    | cons tok rest ih =>
      intro acc h
      rw [List.foldl_cons]
      exact ih _ (addNew_nodup acc (String.mk tok) h)
  exact this toks [] List.nodup_nil

theorem insertAsc_perm (x : String) (l : List String) : (insertAsc x l).Perm (x :: l) := by
  induction l with
  | nil => rfl
  | cons y t ih =>
    rw [insertAsc]
    by_cases hc : dateKey x ≤ dateKey y
    · rw [if_pos hc]
    · rw [if_neg hc]
      exact (ih.cons y).trans (List.Perm.swap x y t)

theorem sortAsc_perm (l : List String) : (l.foldr insertAsc []).Perm l := by
  induction l with
  | nil => rfl
  | cons x t ih => exact (insertAsc_perm x (t.foldr insertAsc [])).trans (ih.cons x)

theorem insertAsc_sorted (x : String) (l : List String)
    (h : l.Pairwise (fun a b => dateKey a ≤ dateKey b)) :
    (insertAsc x l).Pairwise (fun a b => dateKey a ≤ dateKey b) := by
  induction l with
  | nil => simp [insertAsc]
  | cons y t ih =>
    rw [insertAsc]
    rcases List.pairwise_cons.mp h with ⟨hy, ht⟩
    by_cases hc : dateKey x ≤ dateKey y
    · rw [if_pos hc]
      refine List.pairwise_cons.mpr ⟨?_, h⟩
      intro z hz
      rcases List.mem_cons.mp hz with rfl | hz
      · exact hc
      · exact le_trans hc (hy z hz)
    · rw [if_neg hc]
      refine List.pairwise_cons.mpr ⟨?_, ih ht⟩
      intro z hz
      rcases List.mem_cons.mp ((insertAsc_perm x t).mem_iff.mp hz) with rfl | hz
      · omega
      · exact hy z hz

theorem sortAsc_sorted (l : List String) :
    (l.foldr insertAsc []).Pairwise (fun a b => dateKey a ≤ dateKey b) := by
  induction l with
  | nil => simp
  | cons x t ih => exact insertAsc_sorted x (t.foldr insertAsc []) ih

theorem sortDatesIfParse_nodup (l : List String) (h : l.Nodup) :
    (sortDatesIfParse l).Nodup := by
  rw [sortDatesIfParse]
  split_ifs
  · exact (sortAsc_perm l).nodup_iff.mpr h
  · exact h

theorem sortDatesIfParse_mem (l : List String) (s : String) :
    s ∈ sortDatesIfParse l ↔ s ∈ l := by
  rw [sortDatesIfParse]
  split_ifs
  · exact (sortAsc_perm l).mem_iff
  · exact Iff.rfl

theorem sortDatesIfParse_sorted (l : List String)
    (h : ∀ s ∈ l, (strptimeMDY s).isSome = true) :
    (sortDatesIfParse l).Pairwise (fun a b => dateKey a ≤ dateKey b) := by
  rw [sortDatesIfParse, if_pos (List.all_eq_true.mpr h)]
  exact sortAsc_sorted l

theorem extract_date_cards_nodup (pm : PageModel) : (extract_date_cards pm).Nodup := by
  rw [extract_date_cards]
  split_ifs
  · exact sortDatesIfParse_nodup _ (fallbackDates_nodup pm.html)
  · exact sortDatesIfParse_nodup _ (cardStageDates_nodup pm.cardTexts1 pm.cardTexts2)

theorem extract_date_cards_sorted (pm : PageModel)
    (h : ∀ s ∈ extract_date_cards pm, (strptimeMDY s).isSome = true) :
    (extract_date_cards pm).Pairwise (fun a b => dateKey a ≤ dateKey b) := by
  rw [extract_date_cards] at h ⊢
  refine sortDatesIfParse_sorted _ fun s hs => h s ?_
  exact (sortDatesIfParse_mem _ s).mpr hs

/-- Replace a card text carrying the exclusion label by the empty string
(both are skipped by the card loop). -/
def blankIfLabel (t : String) : String :=
  if subIn labelText (pyStrip t).data then "" else t

theorem processCardText_blank (acc : List String) (t : String) :
    processCardText acc (blankIfLabel t) = processCardText acc t := by
  rw [blankIfLabel]
  by_cases hl : subIn labelText (pyStrip t).data = true
  · rw [if_pos hl]
    simp only [processCardText]
    rw [if_pos (Or.inl (by decide)), if_pos (Or.inr hl)]
  · rw [if_neg hl]

theorem cardStageDates_blank (c1 c2 : List String) :
    cardStageDates (c1.map blankIfLabel) (c2.map blankIfLabel) = cardStageDates c1 c2 := by
  rw [cardStageDates, cardStageDates, ← List.map_take, ← List.map_take,
    List.foldl_map, List.foldl_map]
  simp only [processCardText_blank]

theorem get_available_eq (pm : PageModel) :
    get_available_appointments pm =
      match extract_date_cards pm with
      | [] => none
      | d :: rest =>
        some { location :=
                 match List.find? (fun kw => subIn kw.data (lowerList pm.bodyText.data))
                     locationKeywords with
                 | some kw => pyTitle kw
                 | none => pm.locationPreference,
               next_available := d,
               available_dates := (d :: rest).take 15,
               total_slots := (d :: rest).length } := by
  rw [get_available_appointments]
  rcases hL : extract_date_cards pm with - | ⟨d, rest⟩
  · split_ifs <;> rfl
  · rw [if_neg (fun hc => (List.cons_ne_nil d rest) hc.1)]

/-- C7 (amended): slot discovery returns an `available_dates` list that is
de-duplicated, capped at 15 entries, and sorted ascending by calendar date
whenever every collected entry parses as a real MM/DD/YYYY date (an
unparseable date-shaped entry silently aborts the sort, leaving discovery
order); card texts carrying the "Next Available Date" label contribute
nothing to the card pass (they behave as blank), but the page-HTML fallback
pass has no such exclusion; and when no date-shaped text and no
known-location keyword is found, the result is the no-appointments outcome
(none), not a failure. -/
theorem slot_discovery_spec :
    (∀ pm : PageModel, (extract_date_cards pm).Nodup) ∧
    (∀ pm : PageModel, (∀ s ∈ extract_date_cards pm, (strptimeMDY s).isSome = true) →
      (extract_date_cards pm).Pairwise (fun a b => dateKey a ≤ dateKey b)) ∧
    (∀ pm : PageModel,
      extract_date_cards ⟨pm.cardTexts1.map blankIfLabel, pm.cardTexts2.map blankIfLabel,
        pm.html, pm.bodyText, pm.locationPreference⟩ = extract_date_cards pm) ∧
    (∀ (pm : PageModel) (r : RunResultM), get_available_appointments pm = some r →
      r.available_dates = (extract_date_cards pm).take 15 ∧
      r.available_dates.length ≤ 15 ∧ r.available_dates.Nodup) ∧
    (∀ pm : PageModel, extract_date_cards pm = [] →
      (∀ kw ∈ locationKeywords, subIn kw.data (lowerList pm.bodyText.data) = false) →
      get_available_appointments pm = none) := by
  refine ⟨extract_date_cards_nodup, extract_date_cards_sorted, ?_, ?_, ?_⟩
  · intro pm
    rw [extract_date_cards, extract_date_cards]
    rw [show (⟨pm.cardTexts1.map blankIfLabel, pm.cardTexts2.map blankIfLabel,
        pm.html, pm.bodyText, pm.locationPreference⟩ : PageModel).cardTexts1 =
      pm.cardTexts1.map blankIfLabel from rfl]
    rw [show (⟨pm.cardTexts1.map blankIfLabel, pm.cardTexts2.map blankIfLabel,
        pm.html, pm.bodyText, pm.locationPreference⟩ : PageModel).cardTexts2 =
      pm.cardTexts2.map blankIfLabel from rfl]
    rw [cardStageDates_blank]
  · intro pm r h
    rw [get_available_eq] at h
    rcases hL : extract_date_cards pm with - | ⟨d, rest⟩ <;> rw [hL] at h
    · exact Option.noConfusion h
    · injection h with h
      subst h
      refine ⟨rfl, ?_, ?_⟩
      · show ((d :: rest).take 15).length ≤ 15
        rw [List.length_take]
        omega
      · show ((d :: rest).take 15).Nodup
        refine List.Nodup.sublist (List.take_sublist 15 (d :: rest)) ?_
        rw [← hL]
        exact extract_date_cards_nodup pm
  · intro pm hL hkw
    rw [get_available_eq, hL]

/-- C7 counterexample: (a) a date carried only by a "Next Available Date"
label in the page HTML is returned by the fallback pass, which the claim as
stated excludes; (b) a date-shaped but non-calendar string ("99/99/2026")
aborts the sort, so real dates can come back out of ascending order. -/
theorem slot_discovery_counterexample :
    ((get_available_appointments ⟨[], [], "Next Available Date: 03/15/2026", "denton page",
        "Denton"⟩).map (fun r => r.available_dates) = some ["03/15/2026"]) ∧
    ((get_available_appointments ⟨[], [], "03/20/2026 99/99/2026 01/02/2026", "denton page",
        "Denton"⟩).map (fun r => r.available_dates) =
      some ["03/20/2026", "99/99/2026", "01/02/2026"]) := by
  exact ⟨by decide, by decide⟩

/-- Witness for C7: a card pass whose dates all parse comes back sorted
ascending, and a page with no dates and no location keyword yields the
no-appointments outcome. -/
theorem slot_discovery_spec_witness :
    (extract_date_cards ⟨["Thursday 3/12/2026", "Friday 3/6/2026"], [], "", "", "Denton"⟩).Pairwise
      (fun a b => dateKey a ≤ dateKey b) ∧
    get_available_appointments ⟨[], [], "nothing here", "no keywords here", "Denton"⟩ = none := by
  constructor
  · exact slot_discovery_spec.2.1 _ (by decide)
  · exact slot_discovery_spec.2.2.2.2 _ (by decide) (by decide)
